import Mathlib

/-!
# asmc: the SMC key-value client (`smc.c`, `smc.h`)

A shallow embedding of the System Management Controller client: the key
packing helpers, the key-info cache with its resolver, the value reader, the
decoders, the report functions and `main`, followed by theorems about them.

Conventions of the embedding.

* A C `char` object is represented by its byte value `0..255` (a `Nat`).  The
  program is built for macOS (it includes IOKit), where plain `char` is
  signed; `toSChar` gives the C value of such a byte and every place where the
  source promotes a `char` to `int` goes through it.  A `(unsigned char)` cast
  in the source is the byte value itself.
* `UInt32` values are `Nat` with an explicit `% 2 ^ 32` where the source can
  wrap; `kern_return_t` is an `Int` and `kIOReturnSuccess` is `0`.
* The kernel side of `IOConnectCallStructMethod` is not part of the program.
  It is a parameter (`Kernel`): any function from the transactions issued so
  far, the present request and the present content of the output structure to
  a result code and a new output structure.
* The process state (`SMCState`) carries the globals of `smc.c` together with
  the trace of transactions issued and the bytes written to standard output.
* A `double` or `float` result is a `CFloat`: either an exactly known
  rational, or the IEEE-754 single whose 32-bit pattern is given.  Arithmetic
  on `double` is exact arithmetic followed by rounding to nearest, ties to
  even, on the grid of `double` values (`roundDouble`), with overflow to an
  infinity (`toDouble`); `printf` conversions of finite values round the same
  way to the digits asked for.
* What the C library and IOKit decide is a parameter of the functions that
  depend on it: the option characters `getopt` returns (`opts`), the outcome
  of the service discovery calls (`IOKit`), and the single-precision value of
  the percentage printed in a fan line (`Percent`).
-/

namespace SMC

/-! ## Constants of `smc.h` -/

def kIOReturnSuccess : Int := 0

def KERNEL_INDEX_SMC : Nat := 2

def SMC_CMD_READ_BYTES : Nat := 5

def SMC_CMD_READ_KEYINFO : Nat := 9

def KEY_INFO_CACHE_SIZE : Nat := 100

/-- The characters of `"ui8 "`. -/
def DATATYPE_UINT8 : List Nat := [0x75, 0x69, 0x38, 0x20]

/-- The characters of `"ui16"`. -/
def DATATYPE_UINT16 : List Nat := [0x75, 0x69, 0x31, 0x36]

/-- The characters of `"ui32"`. -/
def DATATYPE_UINT32 : List Nat := [0x75, 0x69, 0x33, 0x32]

/-- The characters of `"sp1e"`. -/
def DATATYPE_SP1E : List Nat := [0x73, 0x70, 0x31, 0x65]

/-- The characters of `"sp3c"`. -/
def DATATYPE_SP3C : List Nat := [0x73, 0x70, 0x33, 0x63]

/-- The characters of `"sp4b"`. -/
def DATATYPE_SP4B : List Nat := [0x73, 0x70, 0x34, 0x62]

/-- The characters of `"sp5a"`. -/
def DATATYPE_SP5A : List Nat := [0x73, 0x70, 0x35, 0x61]

/-- The characters of `"sp669"`: the header spells this macro with five
characters (`#define DATATYPE_SP69 "sp669"`). -/
def DATATYPE_SP69 : List Nat := [0x73, 0x70, 0x36, 0x36, 0x39]

/-- The characters of `"sp78"`. -/
def DATATYPE_SP78 : List Nat := [0x73, 0x70, 0x37, 0x38]

/-- The characters of `"sp87"`. -/
def DATATYPE_SP87 : List Nat := [0x73, 0x70, 0x38, 0x37]

/-- The characters of `"sp96"`. -/
def DATATYPE_SP96 : List Nat := [0x73, 0x70, 0x39, 0x36]

/-- The characters of `"spb4"`. -/
def DATATYPE_SPB4 : List Nat := [0x73, 0x70, 0x62, 0x34]

/-- The characters of `"spf0"`. -/
def DATATYPE_SPF0 : List Nat := [0x73, 0x70, 0x66, 0x30]

/-- The characters of `"flt "`. -/
def DATATYPE_FLT : List Nat := [0x66, 0x6c, 0x74, 0x20]

/-- The characters of `"fpe2"`. -/
def DATATYPE_FPE2 : List Nat := [0x66, 0x70, 0x65, 0x32]

/-- The characters of `"sp69"`, the tag the controller reports; the source has
no macro with this spelling (see `DATATYPE_SP69`). -/
def tagSP69 : List Nat := [0x73, 0x70, 0x36, 0x39]

/-! ## Characters and C strings -/

/-- The value of a `char` object holding byte `b`, plain `char` being signed. -/
def toSChar (b : Nat) : Int :=
  if b < 128 then (b : Int) else (b : Int) - 256

/-- The C string stored in a character array: the bytes before the first NUL. -/
def cstring (buf : List Nat) : List Nat :=
  buf.takeWhile (fun c => c != 0)

/-- The test `strcmp(a, lit) == 0` of an array against a string literal whose
characters are `lit`. -/
def strcmpEq (a lit : List Nat) : Bool :=
  cstring a == cstring lit

/-! ## Key packing (`_strtoul`, `_ultostr`) -/

/-- The body of the `for` loop of `_strtoul` at index `i`: the new value of
the accumulator `total` (a `UInt32`).  `str[i] << k` is the signed character
times `2 ^ k` (for a negative character this is what the compiled shift
yields, the sign-extended value shifted); adding it to a `UInt32` is addition
modulo `2 ^ 32`, and the `(unsigned char)` cast of the decimal path keeps the
low eight bits.  The shift count `(size - 1 - i) * 8` stays below 32 as long
as `size <= 4`, which is how the program calls it on keys.  From `size = 5`
on the count reaches the width of `int`; the 32-bit shift instruction of both
macOS targets (x86-64 and arm64) takes its count modulo 32, and so does this
definition: with `size = 5` the character at index 0 is shifted by
`32 % 32 = 0` places. -/
def strtoulStep (str : List Nat) (size : Int) (base : Int) (i : Nat) (total : Nat) : Nat :=
  if base = 16 then
    (((total : Int) +
        toSChar (str.getD i 0) * 2 ^ (((size - 1 - (i : Int)) * 8) % 32).toNat)
      % 2 ^ 32).toNat
  else
    (total +
        ((toSChar (str.getD i 0) * 2 ^ (((size - 1 - (i : Int)) * 8) % 32).toNat) % 256).toNat)
      % 2 ^ 32

/-- The `for` loop of `_strtoul`: `n` iterations remain, `i` is the loop
index and `total` the accumulator. -/
def strtoulLoop (str : List Nat) (size : Int) (base : Int) : Nat → Nat → Nat → Nat
  | 0, _, total => total
  | n + 1, i, total => strtoulLoop str size base n (i + 1) (strtoulStep str size base i total)

/-- `UInt32 _strtoul(char *str, int size, int base)`.  The loop runs for
`i = 0 .. size - 1`, not at all when `size <= 0`. -/
def _strtoul (str : List Nat) (size : Int) (base : Int) : Nat :=
  strtoulLoop str size base size.toNat 0 0

/-- `void _ultostr(char *str, UInt32 val)`: the five bytes that
`sprintf(str, "%c%c%c%c", val >> 24, val >> 16, val >> 8, val)` leaves in
`str`; `%c` writes its argument converted to `unsigned char`. -/
def _ultostr (val : Nat) : List Nat :=
  [(val / 2 ^ 24) % 256, (val / 2 ^ 16) % 256, (val / 2 ^ 8) % 256, val % 256, 0]

/-- The first `n` bytes that `memcpy(dst, src, n)` copies out of `src`. -/
def memcpy (src : List Nat) : Nat → List Nat
  | 0 => []
  | n + 1 => src.headD 0 :: memcpy src.tail n

/-! ## Data model of `smc.h` -/

structure SMCKeyData_vers_t where
  major : Nat
  minor : Nat
  build : Nat
  reserved : Nat
  release : Nat
deriving DecidableEq

structure SMCKeyData_pLimitData_t where
  version : Nat
  length : Nat
  cpuPLimit : Nat
  gpuPLimit : Nat
  memPLimit : Nat
deriving DecidableEq

structure SMCKeyData_keyInfo_t where
  dataSize : Nat
  dataType : Nat
  dataAttributes : Nat
deriving DecidableEq

/-- The transaction structure; `bytes` is the 32-byte `SMCBytes_t`. -/
structure SMCKeyData_t where
  key : Nat
  vers : SMCKeyData_vers_t
  pLimitData : SMCKeyData_pLimitData_t
  keyInfo : SMCKeyData_keyInfo_t
  result : Nat
  status : Nat
  data8 : Nat
  data32 : Nat
  bytes : List Nat
deriving DecidableEq

/-- The value handed back by a read; `key` and `dataType` are `UInt32Char_t`
(five characters), `bytes` is the 32-byte `SMCBytes_t`. -/
structure SMCVal_t where
  key : List Nat
  dataSize : Nat
  dataType : List Nat
  bytes : List Nat
deriving DecidableEq

/-- A key-info structure after `memset(.., 0, ..)`. -/
def SMCKeyData_keyInfo_t.zero : SMCKeyData_keyInfo_t := ⟨0, 0, 0⟩

/-- A transaction structure after `memset(.., 0, sizeof(SMCKeyData_t))`. -/
def SMCKeyData_t.zero : SMCKeyData_t :=
  { key := 0, vers := ⟨0, 0, 0, 0, 0⟩, pLimitData := ⟨0, 0, 0, 0, 0⟩,
    keyInfo := SMCKeyData_keyInfo_t.zero, result := 0, status := 0, data8 := 0,
    data32 := 0, bytes := List.replicate 32 0 }

/-- A value after `memset(val, 0, sizeof(SMCVal_t))`. -/
def SMCVal_t.zero : SMCVal_t :=
  { key := List.replicate 5 0, dataSize := 0, dataType := List.replicate 5 0,
    bytes := List.replicate 32 0 }

/-- One slot of `g_keyInfoCache`. -/
structure KeyInfoCacheEntry where
  key : Nat
  keyInfo : SMCKeyData_keyInfo_t
deriving DecidableEq

/-- A static slot that was never written. -/
def KeyInfoCacheEntry.zero : KeyInfoCacheEntry := ⟨0, SMCKeyData_keyInfo_t.zero⟩

/-- One transaction as the kernel sees it: the connection, the selector passed
to `IOConnectCallStructMethod` and the input structure. -/
structure Call where
  conn : Nat
  index : Nat
  input : SMCKeyData_t
deriving DecidableEq

/-- The kernel side of a transaction: from the transactions issued before, the
present one and the present content of the output structure, the result code
and the content of the output structure afterwards. -/
abbrev Kernel := List Call → Call → SMCKeyData_t → Int × SMCKeyData_t

/-- The globals of `smc.c` (`conn`, `g_keyInfoCache`, `g_keyInfoCacheCount`),
the transactions issued so far (oldest first) and the bytes printed so far.
The lock `g_keyInfoSpinLock` has no content in this sequential model. -/
structure SMCState where
  conn : Nat
  g_keyInfoCache : List KeyInfoCacheEntry
  g_keyInfoCacheCount : Nat
  calls : List Call
  stdout : List Nat
deriving DecidableEq

/-- The state at program start: zeroed statics, nothing issued or printed. -/
def SMCState.init : SMCState :=
  { conn := 0, g_keyInfoCache := List.replicate KEY_INFO_CACHE_SIZE KeyInfoCacheEntry.zero,
    g_keyInfoCacheCount := 0, calls := [], stdout := [] }

/-- A `double` or `float` result: an exactly known rational (a value the
format in question holds exactly), or the IEEE-754 single with the given
32-bit pattern.  An infinite `double` is written as the single infinity of
the same sign, which is the same value. -/
inductive CFloat where
  | num (q : ℚ)
  | float32 (bits : Nat)
deriving DecidableEq

/-! ## Transport and metadata resolver -/

/-- `SMCCall(conn, index, &inputStructure, &outputStructure)`: one call of
`IOConnectCallStructMethod`, recorded in the trace. -/
def SMCCall (kernel : Kernel) (st : SMCState) (conn index : Nat)
    (inputStructure outputStructure : SMCKeyData_t) : Int × SMCKeyData_t × SMCState :=
  let call : Call := ⟨conn, index, inputStructure⟩
  let r := kernel st.calls call outputStructure
  (r.1, r.2, { st with calls := st.calls ++ [call] })

/-- The scan `for (; i < g_keyInfoCacheCount; ++i) if (key == cache[i].key) break;`
with `n` iterations remaining at index `i`; the value is `i` when the loop is
left. -/
def scanLoop (cache : List KeyInfoCacheEntry) (key : Nat) : Nat → Nat → Nat
  | 0, i => i
  | n + 1, i =>
    if key = (cache.getD i KeyInfoCacheEntry.zero).key then i
    else scanLoop cache key n (i + 1)

/-- The input structure `SMCGetKeyInfo` builds on a miss: zeroed, then
`inputStructure.key = key; inputStructure.data8 = SMC_CMD_READ_KEYINFO;`. -/
def keyInfoInput (key : Nat) : SMCKeyData_t :=
  { SMCKeyData_t.zero with key := key, data8 := SMC_CMD_READ_KEYINFO }

/-- `SMCGetKeyInfo(conn, key, keyInfo)`; the last argument is what `*keyInfo`
holds on entry and the second component of the result what it holds on
return. -/
def SMCGetKeyInfo (kernel : Kernel) (st : SMCState) (conn key : Nat)
    (keyInfo : SMCKeyData_keyInfo_t) : Int × SMCKeyData_keyInfo_t × SMCState :=
  let i := scanLoop st.g_keyInfoCache key st.g_keyInfoCacheCount 0
  if i = st.g_keyInfoCacheCount then
    -- Not in cache, must look it up.
    let inputStructure : SMCKeyData_t := keyInfoInput key
    let r := SMCCall kernel st conn KERNEL_INDEX_SMC inputStructure SMCKeyData_t.zero
    let result := r.1
    let outputStructure := r.2.1
    let st1 := r.2.2
    if result = kIOReturnSuccess then
      if st1.g_keyInfoCacheCount < KEY_INFO_CACHE_SIZE then
        (result, outputStructure.keyInfo,
          { st1 with
            g_keyInfoCache :=
              st1.g_keyInfoCache.set st1.g_keyInfoCacheCount ⟨key, outputStructure.keyInfo⟩
            g_keyInfoCacheCount := st1.g_keyInfoCacheCount + 1 })
      else (result, outputStructure.keyInfo, st1)
    else (result, keyInfo, st1)
  else
    (kIOReturnSuccess, (st.g_keyInfoCache.getD i KeyInfoCacheEntry.zero).keyInfo, st)

/-! ## Value reader -/

/-- `SMCReadKey(key, val)`; `*val` is zeroed on entry, so the result does not
depend on what it held. -/
def SMCReadKey (kernel : Kernel) (st : SMCState) (key : List Nat) :
    Int × SMCVal_t × SMCState :=
  let inputStructure : SMCKeyData_t := { SMCKeyData_t.zero with key := _strtoul key 4 16 }
  let val : SMCVal_t := { SMCVal_t.zero with key := memcpy key 5 }
  let r := SMCGetKeyInfo kernel st st.conn inputStructure.key SMCKeyData_t.zero.keyInfo
  let outputStructure : SMCKeyData_t := { SMCKeyData_t.zero with keyInfo := r.2.1 }
  if r.1 ≠ kIOReturnSuccess then (r.1, val, r.2.2)
  else
    let val : SMCVal_t :=
      { val with dataSize := outputStructure.keyInfo.dataSize
                 dataType := _ultostr outputStructure.keyInfo.dataType }
    let inputStructure : SMCKeyData_t :=
      { inputStructure with
        keyInfo := { inputStructure.keyInfo with dataSize := val.dataSize }
        data8 := SMC_CMD_READ_BYTES }
    let r2 := SMCCall kernel r.2.2 r.2.2.conn KERNEL_INDEX_SMC inputStructure outputStructure
    if r2.1 ≠ kIOReturnSuccess then (r2.1, val, r2.2.2)
    else (kIOReturnSuccess, { val with bytes := memcpy r2.2.1.bytes 32 }, r2.2.2)

/-! ## Decoders -/

/-- The array element `val.bytes[i]` as a byte. -/
def SMCVal_t.byte (val : SMCVal_t) (i : Nat) : Nat := val.bytes.getD i 0

/-- The body of `SMCGetTemperature` after its call of `SMCReadKey`. -/
def temperatureOf (result : Int) (val : SMCVal_t) : CFloat :=
  if result = kIOReturnSuccess then
    if val.dataSize > 0 then
      if strcmpEq val.dataType DATATYPE_UINT8 then
        .num (toSChar (val.byte 0) : Int)
      else if strcmpEq val.dataType DATATYPE_UINT16 then
        .num (toSChar (val.byte 0) + toSChar (val.byte 1) : Int)
      else if strcmpEq val.dataType DATATYPE_UINT32 then
        .num (toSChar (val.byte 0) + toSChar (val.byte 1) + toSChar (val.byte 2)
          + toSChar (val.byte 3) : Int)
      else if strcmpEq val.dataType DATATYPE_SP1E then
        .num ((toSChar (val.byte 0) * 256 + (val.byte 1 : Int) : Int) / 16384)
      else if strcmpEq val.dataType DATATYPE_SP3C then
        .num ((toSChar (val.byte 0) * 256 + (val.byte 1 : Int) : Int) / 4096)
      else if strcmpEq val.dataType DATATYPE_SP4B then
        .num ((toSChar (val.byte 0) * 256 + (val.byte 1 : Int) : Int) / 2048)
      else if strcmpEq val.dataType DATATYPE_SP5A then
        .num ((toSChar (val.byte 0) * 256 + (val.byte 1 : Int) : Int) / 1024)
      else if strcmpEq val.dataType DATATYPE_SP69 then
        .num ((toSChar (val.byte 0) * 256 + (val.byte 1 : Int) : Int) / 512)
      else if strcmpEq val.dataType DATATYPE_SP78 then
        .num ((toSChar (val.byte 0) * 256 + (val.byte 1 : Int) : Int) / 256)
      else if strcmpEq val.dataType DATATYPE_SP87 then
        .num ((toSChar (val.byte 0) * 256 + (val.byte 1 : Int) : Int) / 128)
      else if strcmpEq val.dataType DATATYPE_SP96 then
        .num ((toSChar (val.byte 0) * 256 + (val.byte 1 : Int) : Int) / 64)
      else if strcmpEq val.dataType DATATYPE_SPB4 then
        .num ((toSChar (val.byte 0) * 256 + (val.byte 1 : Int) : Int) / 16)
      else if strcmpEq val.dataType DATATYPE_SPF0 then
        .num (toSChar (val.byte 0) * 256 + (val.byte 1 : Int) : Int)
      else if strcmpEq val.dataType DATATYPE_FLT then
        -- `*(float *)val.bytes` on a little-endian machine
        .float32 (val.byte 0 + val.byte 1 * 2 ^ 8 + val.byte 2 * 2 ^ 16 + val.byte 3 * 2 ^ 24)
      else .num 0
    else .num 0
  else .num 0

/-- `double SMCGetTemperature(char *key)`. -/
def SMCGetTemperature (kernel : Kernel) (st : SMCState) (key : List Nat) :
    CFloat × SMCState :=
  let r := SMCReadKey kernel st key
  (temperatureOf r.1 r.2.1, r.2.2)

/-- The body of `SMCGetFanSpeed` after its call of `SMCReadKey`; both bytes
carry an `(unsigned char)` cast in the source. -/
def fanSpeedOf (result : Int) (val : SMCVal_t) : CFloat :=
  if result = kIOReturnSuccess then
    if val.dataSize > 0 then
      if strcmpEq val.dataType DATATYPE_FLT then
        .num (((val.byte 0 : Int) * 256 + (val.byte 1 : Int) : Int) / 4)
      else if strcmpEq val.dataType DATATYPE_FPE2 then
        .num (((val.byte 0 : Int) * 256 + (val.byte 1 : Int) : Int) / 4)
      else .num 0
    else .num 0
  else .num 0

/-- `double SMCGetFanSpeed(char *key)`. -/
def SMCGetFanSpeed (kernel : Kernel) (st : SMCState) (key : List Nat) :
    CFloat × SMCState :=
  let r := SMCReadKey kernel st key
  (fanSpeedOf r.1 r.2.1, r.2.2)

/-- `ntohs` on a little-endian machine: the two bytes of a `UInt16` swapped. -/
def ntohs (x : Nat) : Nat := (x % 256) * 256 + (x / 256) % 256

/-- The bytes of `printf("66 %s %s %s\n", val.dataType, DATATYPE_FPE2, key)`. -/
def fanRPMTrace (val : SMCVal_t) (key : List Nat) : List Nat :=
  [0x36, 0x36, 0x20] ++ cstring val.dataType ++ [0x20] ++ cstring DATATYPE_FPE2 ++ [0x20]
    ++ cstring key ++ [0x0a]

/-- The body of `SMCGetFanRPM` after its call of `SMCReadKey`: the value
returned and the bytes printed on the way. -/
def fanRPMOf (result : Int) (val : SMCVal_t) (key : List Nat) : CFloat × List Nat :=
  if result = kIOReturnSuccess then
    if val.dataSize > 0 then
      if strcmpEq val.dataType DATATYPE_FLT then
        (.float32 (val.byte 0 + val.byte 1 * 2 ^ 8 + val.byte 2 * 2 ^ 16 + val.byte 3 * 2 ^ 24),
          [])
      else if strcmpEq val.dataType DATATYPE_FPE2 then
        -- `ntohs(*(UInt16 *)val.bytes) / 4.0`
        (.num ((ntohs (val.byte 0 + val.byte 1 * 2 ^ 8) : Int) / 4), fanRPMTrace val key)
      else (.num (-1), fanRPMTrace val key)
    else (.num (-1), [])
  else (.num (-1), [])

/-- `float SMCGetFanRPM(char *key)`. -/
def SMCGetFanRPM (kernel : Kernel) (st : SMCState) (key : List Nat) :
    CFloat × SMCState :=
  let r := SMCReadKey kernel st key
  let d := fanRPMOf r.1 r.2.1 key
  (d.1, { r.2.2 with stdout := r.2.2.stdout ++ d.2 })

/-- The type tags `SMCGetTemperature` can match: the four-character literals
of its `strcmp` chain.  The remaining literal of the chain, `DATATYPE_SP69`,
has five characters. -/
def temperatureTags : List (List Nat) :=
  [DATATYPE_UINT8, DATATYPE_UINT16, DATATYPE_UINT32, DATATYPE_SP1E, DATATYPE_SP3C,
    DATATYPE_SP4B, DATATYPE_SP5A, DATATYPE_SP78, DATATYPE_SP87, DATATYPE_SP96, DATATYPE_SPB4,
    DATATYPE_SPF0, DATATYPE_FLT]

/-- The signed fixed-point branches of `SMCGetTemperature` that can be
reached: the tag matched and the constant the integer is divided by
(`spf0` returns the integer itself). -/
def fixedPointTable : List (List Nat × Nat) :=
  [(DATATYPE_SP1E, 16384), (DATATYPE_SP3C, 4096), (DATATYPE_SP4B, 2048), (DATATYPE_SP5A, 1024),
    (DATATYPE_SP78, 256), (DATATYPE_SP87, 128), (DATATYPE_SP96, 64), (DATATYPE_SPB4, 16),
    (DATATYPE_SPF0, 1)]

/-- The type tags `SMCGetFanSpeed` and `SMCGetFanRPM` compare against. -/
def fanTags : List (List Nat) := [DATATYPE_FLT, DATATYPE_FPE2]

/-! ## Sample data used to instantiate the theorems -/

/-- The key `"TC0P"` followed by its terminator. -/
def keyTC0P : List Nat := [0x54, 0x43, 0x30, 0x50, 0]

/-- A key-info record: two bytes of type `sp78`. -/
def infoSP78 : SMCKeyData_keyInfo_t := ⟨2, 0x73703738, 0⟩

/-- A kernel that answers every transaction with success, the key info `info`
and a 32-byte payload starting with `bytes`, the rest zero. -/
def constKernel (info : SMCKeyData_keyInfo_t) (bytes : List Nat) : Kernel := fun _ _ _ =>
  (0, { SMCKeyData_t.zero with
        keyInfo := info, bytes := bytes ++ List.replicate (32 - bytes.length) 0 })

/-- A kernel that answers every transaction with success, key info `infoSP78`
and the payload bytes `0x01, 0x40`. -/
def sampleKernel : Kernel := constKernel infoSP78 [0x01, 0x40]

/-- A kernel that fails every transaction with code `-536870212`
(`kIOReturnError`, `0xe00002bc`). -/
def failingKernel : Kernel := fun _ _ out => (-536870212, out)

/-- A state whose cache holds the single entry `("TC0P", infoSP78)`. -/
def warmState : SMCState :=
  { SMCState.init with
    g_keyInfoCache := ⟨0x54433050, infoSP78⟩ :: List.replicate 99 KeyInfoCacheEntry.zero
    g_keyInfoCacheCount := 1 }

/-- A state whose cache is full: one hundred entries with keys `1 .. 100`. -/
def fullState : SMCState :=
  { SMCState.init with
    g_keyInfoCache := (List.range 100).map (fun i => ⟨i + 1, infoSP78⟩)
    g_keyInfoCacheCount := 100 }

/-! ## Requests built by the value reader -/

/-- The input structure `SMCReadKey` passes to its `READ_BYTES` call: zeroed,
then `key`, `keyInfo.dataSize` and `data8 = SMC_CMD_READ_BYTES` are set. -/
def readBytesInput (key dataSize : Nat) : SMCKeyData_t :=
  { SMCKeyData_t.zero with
    key := key
    keyInfo := { SMCKeyData_t.zero.keyInfo with dataSize := dataSize }
    data8 := SMC_CMD_READ_BYTES }

/-! ## Reachable states -/

/-- The states the program can be in after any finite sequence of
`SMCGetKeyInfo` and `SMCReadKey` calls, with any arguments, starting from a
state whose cache is empty (the 100-slot array with `count = 0`).  The kernel
is arbitrary, so every pattern of successful and failed responses is
covered. -/
inductive Reachable (kernel : Kernel) : SMCState → Prop where
  | start (st : SMCState) (hlen : st.g_keyInfoCache.length = KEY_INFO_CACHE_SIZE)
      (hcount : st.g_keyInfoCacheCount = 0) : Reachable kernel st
  | getKeyInfo (st : SMCState) (conn key : Nat) (keyInfo : SMCKeyData_keyInfo_t)
      (h : Reachable kernel st) : Reachable kernel (SMCGetKeyInfo kernel st conn key keyInfo).2.2
  | readKey (st : SMCState) (key : List Nat) (h : Reachable kernel st) :
      Reachable kernel (SMCReadKey kernel st key).2.2

/-- The cache invariant: the array has its 100 slots, the count is at most
100, and the keys of the first `count` slots are pairwise distinct. -/
def CacheInv (st : SMCState) : Prop :=
  st.g_keyInfoCache.length = KEY_INFO_CACHE_SIZE ∧
    st.g_keyInfoCacheCount ≤ KEY_INFO_CACHE_SIZE ∧
    ∀ i j, i < st.g_keyInfoCacheCount → j < st.g_keyInfoCacheCount →
      (st.g_keyInfoCache.getD i KeyInfoCacheEntry.zero).key =
        (st.g_keyInfoCache.getD j KeyInfoCacheEntry.zero).key → i = j

/-! ## Fan count -/

/-- The conversion of a `UInt32` to `int` (two's complement, 32 bits). -/
def toInt32 (x : Nat) : Int :=
  if x % 2 ^ 32 < 2 ^ 31 then ((x % 2 ^ 32 : Nat) : Int) else ((x % 2 ^ 32 : Nat) : Int) - 2 ^ 32

/-- The fan count of `readAndPrintFanRPMs`:
`totalFans = _strtoul((char *)val.bytes, val.dataSize, 10)`, an `int`. -/
def totalFansOf (val : SMCVal_t) : Int :=
  toInt32 (_strtoul val.bytes (toInt32 val.dataSize) 10)

/-- The two's-complement signed 16-bit value of the big-endian byte pair
`byte0, byte1`, as the statement about the sign of the fixed-point decode
words it; it is compared with what `temperatureOf` computes. -/
def signed16BE (byte0 byte1 : Nat) : Int :=
  if byte0 * 256 + byte1 < 32768 then ((byte0 * 256 + byte1 : Nat) : Int)
  else ((byte0 * 256 + byte1 : Nat) : Int) - 65536

/-! ## Floating-point values and their printing

The decoders hand back `double` and `float` values; `convertToFahrenheit` and
the `printf` calls of the report functions consume them.  A finite value is
its exact rational; arithmetic on `double` is the exact operation followed by
rounding to the nearest value of the format, ties to even, as IEEE-754
arithmetic in its default rounding mode does: 53 significant bits down to
`2 ^ -1022`, the multiples of `2 ^ -1074` below that (`roundDouble`), and an
infinity when the rounded magnitude reaches `2 ^ 1024` (`toDouble`). -/

/-- The bytes of an ASCII string literal. -/
def ascii (s : String) : List Nat := s.toList.map Char.toNat

/-- Decimal digits of `n`, most significant first; `fuel` bounds the length. -/
def digitsAux : Nat → Nat → List Nat → List Nat
  | 0, _, acc => acc
  | fuel + 1, n, acc =>
    if n < 10 then (48 + n) :: acc else digitsAux fuel (n / 10) ((48 + n % 10) :: acc)

/-- The text of `%d` (or `%u`) for a natural number. -/
def decimal (n : Nat) : List Nat := digitsAux (n + 1) n []

/-- The text of `%d` for an `int`. -/
def decimalInt (i : Int) : List Nat :=
  if i < 0 then 0x2d :: decimal (-i).toNat else decimal i.toNat

/-- The value of an IEEE-754 single with the given 32-bit pattern: `none` for
an infinity or a NaN (exponent field 255), the subnormal or normal value
otherwise. -/
def float32Value (bits : Nat) : Option ℚ :=
  if (bits / 2 ^ 23) % 256 = 255 then none
  else if (bits / 2 ^ 23) % 256 = 0 then
    some ((-1) ^ ((bits / 2 ^ 31) % 2) * (bits % 2 ^ 23 : Nat) * (2 : ℚ) ^ (-149 : Int))
  else
    some ((-1) ^ ((bits / 2 ^ 31) % 2) * (2 ^ 23 + bits % 2 ^ 23 : Nat) *
      (2 : ℚ) ^ (((bits / 2 ^ 23) % 256 : Nat) - 150 : Int))

/-- The finite value of a result, `none` for an infinity or a NaN. -/
def CFloat.value : CFloat → Option ℚ
  | .num q => some q
  | .float32 bits => float32Value bits

/-- The test `x < 0.f`: false for zeros of either sign and for a NaN. -/
def CFloat.isNeg : CFloat → Bool
  | .num q => decide (q < 0)
  | .float32 bits =>
    match float32Value bits with
    | some q => decide (q < 0)
    | none => decide ((bits / 2 ^ 31) % 2 = 1 ∧ bits % 2 ^ 23 = 0)

/-- The sign bit of a result: set for negative values, for the single `-0.0`,
and for patterns with bit 31 set. -/
def CFloat.signBit : CFloat → Bool
  | .num q => decide (q < 0)
  | .float32 bits => decide ((bits / 2 ^ 31) % 2 = 1)

/-- Rounding to the nearest integer, ties to the even one. -/
def roundHalfEven (x : ℚ) : Int :=
  if x - ⌊x⌋ < 1 / 2 then ⌊x⌋
  else if 1 / 2 < x - ⌊x⌋ then ⌊x⌋ + 1
  else if ⌊x⌋ % 2 = 0 then ⌊x⌋ else ⌊x⌋ + 1

/-- Rounding of an exact result to the grid of `double` values: the nearest
multiple of `2 ^ (e - 52)`, ties to even, where `2 ^ e ≤ |q| < 2 ^ (e + 1)`
and `e` is not taken below `-1022`: under `2 ^ -1022` the values of `double`
are the multiples of `2 ^ -1074`.  The magnitude is not bounded here;
`toDouble` does that. -/
def roundDouble (q : ℚ) : ℚ :=
  if q = 0 then 0
  else (roundHalfEven (q / 2 ^ (max (Int.log 2 |q|) (-1022) - 52)) : ℚ) *
    2 ^ (max (Int.log 2 |q|) (-1022) - 52)

/-- The infinity of the given sign. -/
def infinity (neg : Bool) : CFloat :=
  .float32 (if neg then 0xFF800000 else 0x7F800000)

/-- The `double` that an operation with exact result `q` delivers: `q`
rounded, or, when the rounded magnitude is `2 ^ 1024` or more (the largest
`double` is `2 ^ 1024 - 2 ^ 971`), the infinity of the sign of `q`. -/
def toDouble (q : ℚ) : CFloat :=
  if (2 : ℚ) ^ 1024 ≤ |roundDouble q| then infinity (decide (q < 0))
  else .num (roundDouble q)

/-- `double convertToFahrenheit(double celsius)`:
`(celsius * (9.0 / 5.0)) + 32.0`.  The constant `9.0 / 5.0` is the `double`
nearest to `9 / 5`; the product and the sum are each rounded to `double`, and
a product that overflowed stays the same infinity when `32.0` is added.  An
infinite argument gives the same infinity and a NaN gives a NaN; both are
handed back as the pattern they came in. -/
def convertToFahrenheit (celsius : CFloat) : CFloat :=
  match celsius.value with
  | some c =>
    match (toDouble (c * roundDouble (9 / 5))).value with
    | some p => toDouble (p + 32)
    | none => toDouble (c * roundDouble (9 / 5))
  | none => celsius

/-- The digits `printf` writes for a finite value with `d` digits after the
point (`%.df`): the magnitude times `10 ^ d` rounded to the nearest integer,
ties to even, with a minus sign when the sign bit is set. -/
def fmtFinite (d : Nat) (neg : Bool) (q : ℚ) : List Nat :=
  (if neg then [0x2d] else []) ++
    decimal ((roundHalfEven (|q| * 10 ^ d)).toNat / 10 ^ d) ++
    (if d = 0 then []
     else
      0x2e :: (List.replicate
          (d - (decimal ((roundHalfEven (|q| * 10 ^ d)).toNat % 10 ^ d)).length) 48 ++
        decimal ((roundHalfEven (|q| * 10 ^ d)).toNat % 10 ^ d)))

/-- The text of `%.df` for a `double` argument (a `float` argument is promoted
without change of value); infinities print as `inf` and `-inf`, a NaN as
`nan`. -/
def fmtFixed (d : Nat) (v : CFloat) : List Nat :=
  match v.value with
  | some q => fmtFinite d v.signBit q
  | none =>
    match v with
    | .float32 bits =>
      if bits % 2 ^ 23 = 0 then
        (if v.signBit then ascii "-inf" else ascii "inf")
      else ascii "nan"
    | .num _ => []

/-! ## Report functions and `main` -/

/-- The bytes of `printf("%s%0.1f °%c\n", title, temperature, scale)`; the
degree sign is the two bytes `0xC2 0xB0` of the source file. -/
def temperatureLine (title : List Nat) (temperature : CFloat) (scale : Nat) : List Nat :=
  cstring title ++ fmtFixed 1 temperature ++ [0x20, 0xC2, 0xB0] ++ [scale % 256] ++ [0x0a]

/-- `void readAndPrintCpuTemp(int show_title, char scale)`; the key read is the
literal `"Tp09"`. -/
def readAndPrintCpuTemp (kernel : Kernel) (st : SMCState) (show_title : Int) (scale : Nat) :
    SMCState :=
  let r := SMCGetTemperature kernel st (ascii "Tp09" ++ [0])
  let temperature := if scale = 0x46 then convertToFahrenheit r.1 else r.1
  let title := if show_title ≠ 0 then ascii "CPU: " else []
  { r.2 with stdout := r.2.stdout ++ temperatureLine title temperature scale }

/-- `void readAndPrintGpuTemp(int show_title, char scale)`; the key read is
`SMC_KEY_GPU_TEMP`, `"TG0P"`. -/
def readAndPrintGpuTemp (kernel : Kernel) (st : SMCState) (show_title : Int) (scale : Nat) :
    SMCState :=
  let r := SMCGetTemperature kernel st (ascii "TG0P" ++ [0])
  let temperature := if scale = 0x46 then convertToFahrenheit r.1 else r.1
  let title := if show_title ≠ 0 then ascii "GPU: " else []
  { r.2 with stdout := r.2.stdout ++ temperatureLine title temperature scale }

/-- The key `sprintf(key, "F%d..", i)` writes for fan `i`: `F`, the decimal
index, the two-letter suffix and the terminator.  (The array `key` has five
characters, which this fills for `i < 10`.) -/
def fanKey (i : Nat) (suffix : String) : List Nat :=
  [0x46] ++ decimal i ++ ascii suffix ++ [0]

/-- The single-precision value of `100 * actual_speed / maximum_speed` is not
fixed by the model (rounding to `float`, overflow and division by zero are
the machine's): it is a parameter of the functions that print it. -/
abbrev Percent := CFloat → CFloat → CFloat

/-- The bytes of
`printf("Fan %d - %s at %.0f RPM (%.0f%%)\n", i, name, actual_speed,
100 * actual_speed / maximum_speed)`. -/
def fanLine (percent : Percent) (i : Nat) (name : List Nat) (actual_speed maximum_speed : CFloat) :
    List Nat :=
  ascii "Fan " ++ decimal i ++ ascii " - " ++ cstring name ++ ascii " at " ++
    fmtFixed 0 actual_speed ++ ascii " RPM (" ++
    fmtFixed 0 (percent actual_speed maximum_speed) ++ ascii "%)\n"

/-- The read `SMCReadKey(key, &val)` of `F<i>ID` that opens iteration `i`,
started in state `st`. -/
def fanIdRead (kernel : Kernel) (st : SMCState) (i : Nat) : Int × SMCVal_t × SMCState :=
  SMCReadKey kernel st (fanKey i "ID")

/-- `actual_speed = SMCGetFanRPM("F<i>Ac")`, called after the `F<i>ID` read. -/
def actualSpeed (kernel : Kernel) (st : SMCState) (i : Nat) : CFloat × SMCState :=
  SMCGetFanRPM kernel (fanIdRead kernel st i).2.2 (fanKey i "Ac")

/-- `minimum_speed = SMCGetFanRPM("F<i>Mn")`, called after `actual_speed`. -/
def minimumSpeed (kernel : Kernel) (st : SMCState) (i : Nat) : CFloat × SMCState :=
  SMCGetFanRPM kernel (actualSpeed kernel st i).2 (fanKey i "Mn")

/-- `maximum_speed = SMCGetFanRPM("F<i>Mx")`, called after `minimum_speed`. -/
def maximumSpeed (kernel : Kernel) (st : SMCState) (i : Nat) : CFloat × SMCState :=
  SMCGetFanRPM kernel (minimumSpeed kernel st i).2 (fanKey i "Mx")

/-- One iteration of the loop of `readAndPrintFanRPMs`, for fan `i`.  Each
`continue` ends the iteration in the state reached so far; `name` is the
string at `val.bytes + 4` (read up to the end of the 32-byte buffer). -/
def fanBody (kernel : Kernel) (percent : Percent) (st : SMCState) (i : Nat) : SMCState :=
  if (fanIdRead kernel st i).1 ≠ kIOReturnSuccess then (fanIdRead kernel st i).2.2
  else if (actualSpeed kernel st i).1.isNeg then (actualSpeed kernel st i).2
  else if (minimumSpeed kernel st i).1.isNeg then (minimumSpeed kernel st i).2
  else if (maximumSpeed kernel st i).1.isNeg then (maximumSpeed kernel st i).2
  else
    { (maximumSpeed kernel st i).2 with
      stdout := (maximumSpeed kernel st i).2.stdout ++
        fanLine percent i ((fanIdRead kernel st i).2.1.bytes.drop 4)
          (actualSpeed kernel st i).1 (maximumSpeed kernel st i).1 }

/-- The loop `for (i = 0; i < totalFans; i++)` with `n` iterations remaining
at index `i`. -/
def fanLoop (kernel : Kernel) (percent : Percent) : Nat → Nat → SMCState → SMCState
  | 0, _, st => st
  | n + 1, i, st => fanLoop kernel percent n (i + 1) (fanBody kernel percent st i)

/-- `void readAndPrintFanRPMs(void)`. -/
def readAndPrintFanRPMs (kernel : Kernel) (percent : Percent) (st : SMCState) : SMCState :=
  let r := SMCReadKey kernel st (ascii "FNum" ++ [0])
  if r.1 = kIOReturnSuccess then
    let totalFans := totalFansOf r.2.1
    fanLoop kernel percent totalFans.toNat 0
      { r.2.2 with
        stdout := r.2.2.stdout ++ (ascii "Num fans: " ++ decimalInt totalFans ++ [0x0a]) }
  else r.2.2

/-- What the service discovery calls of `SMCOpen` give: the result of
`IOServiceGetMatchingServices`, the device `IOIteratorNext` returns (0 when
there is none), the result of `IOServiceOpen` and the connection it leaves in
`conn`. -/
structure IOKit where
  matchingResult : Int
  device : Nat
  openResult : Int
  openConn : Nat
deriving DecidableEq

/-- A hexadecimal digit, lower case. -/
def hexDigit (d : Nat) : Nat := if d < 10 then 48 + d else 87 + d

/-- The text of `%08x` for a `kern_return_t`, taken as a 32-bit unsigned
value. -/
def hex8 (x : Int) : List Nat :=
  [28, 24, 20, 16, 12, 8, 4, 0].map (fun k => hexDigit ((x % 2 ^ 32).toNat / 2 ^ k % 16))

/-- `kern_return_t SMCOpen(void)`. -/
def SMCOpen (io : IOKit) (st : SMCState) : Int × SMCState :=
  if io.matchingResult ≠ kIOReturnSuccess then
    (1, { st with
          stdout := st.stdout ++ (ascii "Error: IOServiceGetMatchingServices() = " ++
            hex8 io.matchingResult ++ [0x0a]) })
  else if io.device = 0 then
    (1, { st with stdout := st.stdout ++ ascii "Error: no SMC found\n" })
  else if io.openResult ≠ kIOReturnSuccess then
    (1, { st with
          conn := io.openConn
          stdout := st.stdout ++ (ascii "Error: IOServiceOpen() = " ++
            hex8 io.openResult ++ [0x0a]) })
  else (kIOReturnSuccess, { st with conn := io.openConn })

/-- `kern_return_t SMCClose(void)`: `IOServiceClose(conn)` acts on the kernel
side only; the program state is unchanged. -/
def SMCClose (st : SMCState) : SMCState := st

/-- The variables `main` sets while it reads its options. -/
structure Options where
  scale : Nat
  cpu : Int
  fan : Int
  gpu : Int
deriving DecidableEq

/-- The `while ((c = getopt(..)) != -1) switch (c)` loop of `main` over the
option characters `getopt` returns, in order; `none` when the help case
(`'h'` or `'?'`) is reached. -/
def parseOptions : List Nat → Options → Option Options
  | [], o => some o
  | c :: rest, o =>
    if c = 0x46 ∨ c = 0x43 then parseOptions rest { o with scale := c }
    else if c = 0x63 then parseOptions rest { o with cpu := 1 }
    else if c = 0x66 then parseOptions rest { o with fan := 1 }
    else if c = 0x67 then parseOptions rest { o with gpu := 1 }
    else if c = 0x68 ∨ c = 0x3f then none
    else parseOptions rest o

/-- The usage text of the help case. -/
def usageText : List Nat :=
  ascii "usage: osx-cpu-temp <options>\n" ++
    ascii "Options:\n" ++
    ascii "  -F  Display temperatures in degrees Fahrenheit.\n" ++
    ascii "  -C  Display temperatures in degrees Celsius (Default).\n" ++
    ascii "  -c  Display CPU temperature (Default).\n" ++
    ascii "  -g  Display GPU temperature.\n" ++
    ascii "  -f  Display fan speeds.\n" ++
    ascii "  -h  Display this help.\n" ++
    ascii "\nIf more than one of -c, -f, or -g are specified, titles will be added\n"

/-- `int main(int argc, char *argv[])`; `opts` is the sequence of option
characters `getopt` returns for the argument list.  The value of `SMCOpen()`
is not used. -/
def main (kernel : Kernel) (percent : Percent) (io : IOKit) (opts : List Nat) (st : SMCState) :
    Int × SMCState :=
  match parseOptions opts { scale := 0x43, cpu := 0, fan := 0, gpu := 0 } with
  | none => (-1, { st with stdout := st.stdout ++ usageText })
  | some o =>
    let cpu : Int := if o.fan = 0 ∧ o.gpu = 0 then 1 else o.cpu
    let show_title : Int := if o.fan + o.gpu + cpu > 1 then 1 else 0
    let st1 := (SMCOpen io st).2
    let st2 := if cpu ≠ 0 then readAndPrintCpuTemp kernel st1 show_title o.scale else st1
    let st3 := if o.gpu ≠ 0 then readAndPrintGpuTemp kernel st2 show_title o.scale else st2
    let st4 := if o.fan ≠ 0 then readAndPrintFanRPMs kernel percent st3 else st3
    (0, SMCClose st4)

/-- A sample `Percent`: the exact quotient `100 * a / m` where both values are
finite and `m` is not zero, and `0` elsewhere. -/
def exactPercent : Percent := fun a m =>
  match a.value, m.value with
  | some x, some y => if y = 0 then CFloat.num 0 else CFloat.num (100 * x / y)
  | _, _ => CFloat.num 0

/-! ## The cache scan -/

theorem scanLoop_ge (cache : List KeyInfoCacheEntry) (key : Nat) (n i : Nat) :
    i ≤ scanLoop cache key n i := by
  induction n generalizing i with
  | zero => simp [scanLoop]
  | succ n ih =>
    unfold scanLoop
    split
    · exact le_refl i
    · exact Nat.le_trans (Nat.le_succ i) (ih (i + 1))

theorem scanLoop_le (cache : List KeyInfoCacheEntry) (key : Nat) (n i : Nat) :
    scanLoop cache key n i ≤ i + n := by
  induction n generalizing i with
  | zero => simp [scanLoop]
  | succ n ih =>
    unfold scanLoop
    split
    · omega
    · have := ih (i + 1); omega

/-- A scan over slots none of which holds the key runs to the end. -/
theorem scanLoop_miss (cache : List KeyInfoCacheEntry) (key : Nat) (n i : Nat)
    (h : ∀ j, i ≤ j → j < i + n → (cache.getD j KeyInfoCacheEntry.zero).key ≠ key) :
    scanLoop cache key n i = i + n := by
  induction n generalizing i with
  | zero => simp [scanLoop]
  | succ n ih =>
    unfold scanLoop
    have h0 : ¬ key = (cache.getD i KeyInfoCacheEntry.zero).key := by
      intro e
      exact h i (le_refl i) (by omega) e.symm
    rw [if_neg h0, ih (i + 1) (fun j hj hlt => h j (by omega) (by omega))]
    omega

/-- A scan that stops early stops at the first slot holding the key. -/
theorem scanLoop_found (cache : List KeyInfoCacheEntry) (key : Nat) (n i : Nat)
    (h : scanLoop cache key n i < i + n) :
    (cache.getD (scanLoop cache key n i) KeyInfoCacheEntry.zero).key = key ∧
      ∀ j, i ≤ j → j < scanLoop cache key n i →
        (cache.getD j KeyInfoCacheEntry.zero).key ≠ key := by
  induction n generalizing i with
  | zero => simp [scanLoop] at h
  | succ n ih =>
    unfold scanLoop at h ⊢
    by_cases h0 : key = (cache.getD i KeyInfoCacheEntry.zero).key
    · rw [if_pos h0]
      refine ⟨h0.symm, ?_⟩
      intro j hj hlt
      omega
    · rw [if_neg h0] at h ⊢
      have ih1 := ih (i + 1) (by omega)
      refine ⟨ih1.1, ?_⟩
      intro j hj hlt
      by_cases hji : j = i
      · subst hji
        exact fun e => h0 e.symm
      · exact ih1.2 j (by omega) hlt

/-- A scan over slots one of which holds the key stops before the end. -/
theorem scanLoop_present (cache : List KeyInfoCacheEntry) (key : Nat) (n i : Nat)
    (h : ∃ j, i ≤ j ∧ j < i + n ∧ (cache.getD j KeyInfoCacheEntry.zero).key = key) :
    scanLoop cache key n i < i + n := by
  rcases Nat.lt_or_ge (scanLoop cache key n i) (i + n) with hlt | hge
  · exact hlt
  · exfalso
    obtain ⟨j, hij, hjn, hk⟩ := h
    have hle := scanLoop_le cache key n i
    have heq : scanLoop cache key n i = i + n := by omega
    induction n generalizing i with
    | zero => omega
    | succ n ih =>
      unfold scanLoop at heq
      by_cases h0 : key = (cache.getD i KeyInfoCacheEntry.zero).key
      · rw [if_pos h0] at heq
        omega
      · rw [if_neg h0] at heq
        have hne : j ≠ i := by
          intro e
          subst e
          exact h0 hk.symm
        exact ih (i + 1) (by omega) (by omega) (by omega) (scanLoop_le cache key n (i + 1))
          (by omega)

/-! ## Metadata resolver: hit, miss with room, miss when full, failure -/

theorem SMCGetKeyInfo_of_found (kernel : Kernel) (st : SMCState) (conn k : Nat)
    (keyInfo : SMCKeyData_keyInfo_t)
    (h : scanLoop st.g_keyInfoCache k st.g_keyInfoCacheCount 0 ≠ st.g_keyInfoCacheCount) :
    SMCGetKeyInfo kernel st conn k keyInfo =
      (kIOReturnSuccess,
        (st.g_keyInfoCache.getD (scanLoop st.g_keyInfoCache k st.g_keyInfoCacheCount 0)
          KeyInfoCacheEntry.zero).keyInfo, st) := by
  simp only [SMCGetKeyInfo, if_neg h]

theorem scanLoop_absent (st : SMCState) (k : Nat)
    (hmiss : ∀ i, i < st.g_keyInfoCacheCount →
      (st.g_keyInfoCache.getD i KeyInfoCacheEntry.zero).key ≠ k) :
    scanLoop st.g_keyInfoCache k st.g_keyInfoCacheCount 0 = st.g_keyInfoCacheCount := by
  have := scanLoop_miss st.g_keyInfoCache k st.g_keyInfoCacheCount 0
    (fun j _ hj => hmiss j (by omega))
  omega

/-- A resolution that finds the key in slot `i`, the first slot holding it. -/
theorem SMCGetKeyInfo_first (kernel : Kernel) (st : SMCState) (conn k : Nat)
    (keyInfo : SMCKeyData_keyInfo_t)
    (h : ∃ i, i < st.g_keyInfoCacheCount ∧
      (st.g_keyInfoCache.getD i KeyInfoCacheEntry.zero).key = k) :
    ∃ i, i < st.g_keyInfoCacheCount ∧
      (st.g_keyInfoCache.getD i KeyInfoCacheEntry.zero).key = k ∧
      (∀ j, j < i → (st.g_keyInfoCache.getD j KeyInfoCacheEntry.zero).key ≠ k) ∧
      SMCGetKeyInfo kernel st conn k keyInfo =
        (kIOReturnSuccess, (st.g_keyInfoCache.getD i KeyInfoCacheEntry.zero).keyInfo, st) := by
  obtain ⟨i, hi, hk⟩ := h
  have hlt : scanLoop st.g_keyInfoCache k st.g_keyInfoCacheCount 0 <
      0 + st.g_keyInfoCacheCount :=
    scanLoop_present _ _ _ _ ⟨i, Nat.zero_le i, by omega, hk⟩
  have hf := scanLoop_found _ _ _ _ hlt
  refine ⟨scanLoop st.g_keyInfoCache k st.g_keyInfoCacheCount 0, by omega, hf.1,
    fun j hj => hf.2 j (Nat.zero_le j) hj, ?_⟩
  exact SMCGetKeyInfo_of_found kernel st conn k keyInfo (by omega)

/-- A resolution that does not find the key issues one `READ_KEYINFO`
transaction and acts on its result. -/
theorem SMCGetKeyInfo_of_absent (kernel : Kernel) (st : SMCState) (conn k : Nat)
    (keyInfo : SMCKeyData_keyInfo_t)
    (hmiss : ∀ i, i < st.g_keyInfoCacheCount →
      (st.g_keyInfoCache.getD i KeyInfoCacheEntry.zero).key ≠ k) :
    SMCGetKeyInfo kernel st conn k keyInfo =
      if (kernel st.calls ⟨conn, KERNEL_INDEX_SMC, keyInfoInput k⟩ SMCKeyData_t.zero).1
          = kIOReturnSuccess then
        if st.g_keyInfoCacheCount < KEY_INFO_CACHE_SIZE then
          (kIOReturnSuccess,
            (kernel st.calls ⟨conn, KERNEL_INDEX_SMC, keyInfoInput k⟩ SMCKeyData_t.zero).2.keyInfo,
            { st with
              calls := st.calls ++ [⟨conn, KERNEL_INDEX_SMC, keyInfoInput k⟩]
              g_keyInfoCache := st.g_keyInfoCache.set st.g_keyInfoCacheCount
                ⟨k, (kernel st.calls ⟨conn, KERNEL_INDEX_SMC, keyInfoInput k⟩
                  SMCKeyData_t.zero).2.keyInfo⟩
              g_keyInfoCacheCount := st.g_keyInfoCacheCount + 1 })
        else
          (kIOReturnSuccess,
            (kernel st.calls ⟨conn, KERNEL_INDEX_SMC, keyInfoInput k⟩ SMCKeyData_t.zero).2.keyInfo,
            { st with calls := st.calls ++ [⟨conn, KERNEL_INDEX_SMC, keyInfoInput k⟩] })
      else
        ((kernel st.calls ⟨conn, KERNEL_INDEX_SMC, keyInfoInput k⟩ SMCKeyData_t.zero).1, keyInfo,
          { st with calls := st.calls ++ [⟨conn, KERNEL_INDEX_SMC, keyInfoInput k⟩] }) := by
  have hs := scanLoop_absent st k hmiss
  simp only [SMCGetKeyInfo, hs, if_true, SMCCall]
  by_cases h1 : (kernel st.calls ⟨conn, KERNEL_INDEX_SMC, keyInfoInput k⟩ SMCKeyData_t.zero).1
      = kIOReturnSuccess
  · simp only [h1, if_true]
  · simp only [h1, if_false]

/-- Writing slot `n` of an array changes its first `n + 1` slots into the
previous first `n` slots followed by the value written. -/
theorem take_succ_set_self {α : Type} (l : List α) (n : Nat) (a : α) (h : n < l.length) :
    (l.set n a).take (n + 1) = l.take n ++ [a] := by
  rw [List.take_succ]
  congr 1
  · apply List.ext_getElem?
    intro i
    rw [List.getElem?_take, List.getElem?_take]
    split
    · rw [List.getElem?_set_ne (by omega)]
    · rfl
  · simp [List.getElem?_set_self h]

/-- Once `(k, v)` has been written into slot `count` of a cache that did not
hold `k`, a resolution of `k` is a hit on that slot. -/
theorem SMCGetKeyInfo_after_store (kernel : Kernel) (st : SMCState) (conn k : Nat)
    (v keyInfo2 : SMCKeyData_keyInfo_t) (calls : List Call)
    (hlen : st.g_keyInfoCacheCount < st.g_keyInfoCache.length)
    (hmiss : ∀ i, i < st.g_keyInfoCacheCount →
      (st.g_keyInfoCache.getD i KeyInfoCacheEntry.zero).key ≠ k) :
    SMCGetKeyInfo kernel
        { st with
          calls := calls
          g_keyInfoCache := st.g_keyInfoCache.set st.g_keyInfoCacheCount ⟨k, v⟩
          g_keyInfoCacheCount := st.g_keyInfoCacheCount + 1 } conn k keyInfo2 =
      (kIOReturnSuccess, v,
        { st with
          calls := calls
          g_keyInfoCache := st.g_keyInfoCache.set st.g_keyInfoCacheCount ⟨k, v⟩
          g_keyInfoCacheCount := st.g_keyInfoCacheCount + 1 }) := by
  have hnew : ((st.g_keyInfoCache.set st.g_keyInfoCacheCount ⟨k, v⟩).getD
      st.g_keyInfoCacheCount KeyInfoCacheEntry.zero) = ⟨k, v⟩ := by
    simp [List.getD_eq_getElem?_getD, List.getElem?_set_self, hlen]
  have hold : ∀ j, j < st.g_keyInfoCacheCount →
      (st.g_keyInfoCache.set st.g_keyInfoCacheCount ⟨k, v⟩).getD j KeyInfoCacheEntry.zero =
        st.g_keyInfoCache.getD j KeyInfoCacheEntry.zero := by
    intro j hj
    have hne : st.g_keyInfoCacheCount ≠ j := by omega
    simp [List.getD_eq_getElem?_getD, List.getElem?_set_ne hne]
  obtain ⟨i, hi, hk, _, heq⟩ := SMCGetKeyInfo_first kernel
    { st with
      calls := calls
      g_keyInfoCache := st.g_keyInfoCache.set st.g_keyInfoCacheCount ⟨k, v⟩
      g_keyInfoCacheCount := st.g_keyInfoCacheCount + 1 } conn k keyInfo2
    ⟨st.g_keyInfoCacheCount, Nat.lt_succ_self _, by rw [hnew]⟩
  have hic : i = st.g_keyInfoCacheCount := by
    by_contra hne
    have hlt : i < st.g_keyInfoCacheCount := by
      have : i < st.g_keyInfoCacheCount + 1 := hi
      omega
    have hk2 : ((st.g_keyInfoCache.set st.g_keyInfoCacheCount ⟨k, v⟩).getD i
        KeyInfoCacheEntry.zero).key = k := hk
    rw [hold i hlt] at hk2
    exact hmiss i hlt hk2
  rw [heq]
  subst hic
  simp only [hnew]

/-- **C1** (cache hit).  Whatever the kernel, the connection and the key `k`:
(1) in every state in which `k` is held by one of the first `count` slots, and
for every prior content of the caller's output, `SMCGetKeyInfo` returns
`kIOReturnSuccess` with the key info of a slot `i < count` holding `k` (the
first such slot, the only one when keys are distinct) and leaves the whole
state as it was: cache array, count and the transaction trace, so no
transaction is issued; (2) hence, on a 100-slot cache, when a resolution of
`k` succeeded and either found `k` or had room to store it, a second
resolution of `k` returns success with the same key info and again leaves the
state, the trace included, unchanged. -/
theorem SMCGetKeyInfo_cache_hit (kernel : Kernel) (conn k : Nat) :
    (∀ (st : SMCState) (keyInfo : SMCKeyData_keyInfo_t),
      (∃ i, i < st.g_keyInfoCacheCount ∧
        (st.g_keyInfoCache.getD i KeyInfoCacheEntry.zero).key = k) →
      ∃ i, i < st.g_keyInfoCacheCount ∧
        (st.g_keyInfoCache.getD i KeyInfoCacheEntry.zero).key = k ∧
        (∀ j, j < i → (st.g_keyInfoCache.getD j KeyInfoCacheEntry.zero).key ≠ k) ∧
        SMCGetKeyInfo kernel st conn k keyInfo =
          (kIOReturnSuccess, (st.g_keyInfoCache.getD i KeyInfoCacheEntry.zero).keyInfo, st)) ∧
    (∀ (st : SMCState) (keyInfo keyInfo2 : SMCKeyData_keyInfo_t),
      st.g_keyInfoCache.length = KEY_INFO_CACHE_SIZE →
      ((∃ i, i < st.g_keyInfoCacheCount ∧
          (st.g_keyInfoCache.getD i KeyInfoCacheEntry.zero).key = k) ∨
        st.g_keyInfoCacheCount < KEY_INFO_CACHE_SIZE) →
      (SMCGetKeyInfo kernel st conn k keyInfo).1 = kIOReturnSuccess →
      SMCGetKeyInfo kernel (SMCGetKeyInfo kernel st conn k keyInfo).2.2 conn k keyInfo2 =
        (kIOReturnSuccess, (SMCGetKeyInfo kernel st conn k keyInfo).2.1,
          (SMCGetKeyInfo kernel st conn k keyInfo).2.2)) := by
  refine ⟨fun st keyInfo h => SMCGetKeyInfo_first kernel st conn k keyInfo h, ?_⟩
  intro st keyInfo keyInfo2 hlen hcase hok
  by_cases hp : ∃ i, i < st.g_keyInfoCacheCount ∧
      (st.g_keyInfoCache.getD i KeyInfoCacheEntry.zero).key = k
  · have hs : scanLoop st.g_keyInfoCache k st.g_keyInfoCacheCount 0 ≠
        st.g_keyInfoCacheCount := by
      have := scanLoop_present st.g_keyInfoCache k st.g_keyInfoCacheCount 0
        (by obtain ⟨j, hj, hjk⟩ := hp; exact ⟨j, Nat.zero_le j, by omega, hjk⟩)
      omega
    rw [SMCGetKeyInfo_of_found kernel st conn k keyInfo hs]
    exact SMCGetKeyInfo_of_found kernel st conn k keyInfo2 hs
  · have hroom : st.g_keyInfoCacheCount < KEY_INFO_CACHE_SIZE := by
      rcases hcase with h | h
      · exact absurd h hp
      · exact h
    have hmiss : ∀ i, i < st.g_keyInfoCacheCount →
        (st.g_keyInfoCache.getD i KeyInfoCacheEntry.zero).key ≠ k :=
      fun i hi e => hp ⟨i, hi, e⟩
    have habs := SMCGetKeyInfo_of_absent kernel st conn k keyInfo hmiss
    rw [habs] at hok ⊢
    by_cases hres : (kernel st.calls ⟨conn, KERNEL_INDEX_SMC, keyInfoInput k⟩
        SMCKeyData_t.zero).1 = kIOReturnSuccess
    · simp only [hres, if_true, hroom]
      exact SMCGetKeyInfo_after_store kernel st conn k _ keyInfo2 _ (by omega) hmiss
    · simp only [hres, if_false] at hok

/-- Instance of C1: with the key `"TC0P"` cached, a resolution succeeds with
the cached record even on a kernel that fails every transaction, and leaves
the state untouched; and on an empty cache a second resolution of `"TC0P"`
repeats the result of the first without changing the state. -/
theorem SMCGetKeyInfo_cache_hit_witness :
    SMCGetKeyInfo failingKernel warmState 0 0x54433050 SMCKeyData_keyInfo_t.zero =
        (kIOReturnSuccess, infoSP78, warmState) ∧
      SMCGetKeyInfo sampleKernel
          (SMCGetKeyInfo sampleKernel SMCState.init 0 0x54433050 SMCKeyData_keyInfo_t.zero).2.2
          0 0x54433050 SMCKeyData_keyInfo_t.zero =
        (kIOReturnSuccess,
          (SMCGetKeyInfo sampleKernel SMCState.init 0 0x54433050 SMCKeyData_keyInfo_t.zero).2.1,
          (SMCGetKeyInfo sampleKernel SMCState.init 0 0x54433050
            SMCKeyData_keyInfo_t.zero).2.2) := by
  constructor
  · obtain ⟨i, hi, _, _, h⟩ := (SMCGetKeyInfo_cache_hit failingKernel 0 0x54433050).1 warmState
      SMCKeyData_keyInfo_t.zero ⟨0, by decide, rfl⟩
    have hi1 : i < 1 := hi
    have hi0 : i = 0 := by omega
    subst hi0
    exact h
  · exact (SMCGetKeyInfo_cache_hit sampleKernel 0 0x54433050).2 SMCState.init
      SMCKeyData_keyInfo_t.zero SMCKeyData_keyInfo_t.zero rfl (Or.inr (by decide)) rfl

/-- **C2** (miss with room).  In every state whose 100-slot cache has
`count < 100` and holds `k` in none of its first `count` slots, if the kernel
answers the `READ_KEYINFO` request for `k` with success and output structure
`out`, then `SMCGetKeyInfo` returns success with `out.keyInfo`; the count
grows by exactly one; the first `count + 1` slots are the previous first
`count` slots followed by `(k, out.keyInfo)` and the array keeps its 100
slots; exactly that one request is added to the trace; and a resolution of
`k` right after it returns success with `out.keyInfo` and changes nothing,
so it issues no transaction. -/
theorem SMCGetKeyInfo_miss_with_room (kernel : Kernel) (st : SMCState) (conn k : Nat)
    (keyInfo : SMCKeyData_keyInfo_t) (out : SMCKeyData_t)
    (hlen : st.g_keyInfoCache.length = KEY_INFO_CACHE_SIZE)
    (hroom : st.g_keyInfoCacheCount < KEY_INFO_CACHE_SIZE)
    (hmiss : ∀ i, i < st.g_keyInfoCacheCount →
      (st.g_keyInfoCache.getD i KeyInfoCacheEntry.zero).key ≠ k)
    (hres : kernel st.calls ⟨conn, KERNEL_INDEX_SMC, keyInfoInput k⟩ SMCKeyData_t.zero =
      (kIOReturnSuccess, out)) :
    (SMCGetKeyInfo kernel st conn k keyInfo).1 = kIOReturnSuccess ∧
      (SMCGetKeyInfo kernel st conn k keyInfo).2.1 = out.keyInfo ∧
      (SMCGetKeyInfo kernel st conn k keyInfo).2.2.g_keyInfoCacheCount =
        st.g_keyInfoCacheCount + 1 ∧
      (SMCGetKeyInfo kernel st conn k keyInfo).2.2.g_keyInfoCache.take
          (st.g_keyInfoCacheCount + 1) =
        st.g_keyInfoCache.take st.g_keyInfoCacheCount ++ [⟨k, out.keyInfo⟩] ∧
      (SMCGetKeyInfo kernel st conn k keyInfo).2.2.g_keyInfoCache.length =
        KEY_INFO_CACHE_SIZE ∧
      (SMCGetKeyInfo kernel st conn k keyInfo).2.2.calls =
        st.calls ++ [⟨conn, KERNEL_INDEX_SMC, keyInfoInput k⟩] ∧
      ∀ keyInfo2 : SMCKeyData_keyInfo_t,
        SMCGetKeyInfo kernel (SMCGetKeyInfo kernel st conn k keyInfo).2.2 conn k keyInfo2 =
          (kIOReturnSuccess, out.keyInfo, (SMCGetKeyInfo kernel st conn k keyInfo).2.2) := by
  have habs := SMCGetKeyInfo_of_absent kernel st conn k keyInfo hmiss
  rw [hres] at habs
  simp only [if_true, hroom] at habs
  rw [habs]
  have hlt : st.g_keyInfoCacheCount < st.g_keyInfoCache.length := by omega
  refine ⟨rfl, rfl, rfl, ?_, ?_, rfl, ?_⟩
  · exact take_succ_set_self st.g_keyInfoCache st.g_keyInfoCacheCount _ hlt
  · simp only [List.length_set]
    exact hlen
  · intro keyInfo2
    exact SMCGetKeyInfo_after_store kernel st conn k out.keyInfo keyInfo2 _ hlt hmiss

/-- Instance of C2: on the empty cache, resolving `"TC0P"` against a kernel
that answers with `infoSP78`. -/
theorem SMCGetKeyInfo_miss_with_room_witness :
    (SMCGetKeyInfo sampleKernel SMCState.init 0 0x54433050
        SMCKeyData_keyInfo_t.zero).2.2.g_keyInfoCacheCount = 1 ∧
      (SMCGetKeyInfo sampleKernel SMCState.init 0 0x54433050
        SMCKeyData_keyInfo_t.zero).2.2.g_keyInfoCache.take 1 = [⟨0x54433050, infoSP78⟩] :=
  have h := SMCGetKeyInfo_miss_with_room sampleKernel SMCState.init 0 0x54433050
    SMCKeyData_keyInfo_t.zero _ rfl (by decide) (fun i hi => absurd hi (Nat.not_lt_zero i)) rfl
  ⟨h.2.2.1, h.2.2.2.1⟩

/-- **C3** (miss when full).  In every state with `count = 100` whose first
100 slots do not hold `k`, if the kernel answers the `READ_KEYINFO` request
for `k` with success and output structure `out`, then `SMCGetKeyInfo`
returns success with `out.keyInfo`, the count is still 100 and the cache
array is the same as before: the state changes in its transaction trace
only, which gains that one request. -/
theorem SMCGetKeyInfo_miss_when_full (kernel : Kernel) (st : SMCState) (conn k : Nat)
    (keyInfo : SMCKeyData_keyInfo_t) (out : SMCKeyData_t)
    (hfull : st.g_keyInfoCacheCount = KEY_INFO_CACHE_SIZE)
    (hmiss : ∀ i, i < st.g_keyInfoCacheCount →
      (st.g_keyInfoCache.getD i KeyInfoCacheEntry.zero).key ≠ k)
    (hres : kernel st.calls ⟨conn, KERNEL_INDEX_SMC, keyInfoInput k⟩ SMCKeyData_t.zero =
      (kIOReturnSuccess, out)) :
    (SMCGetKeyInfo kernel st conn k keyInfo).1 = kIOReturnSuccess ∧
      (SMCGetKeyInfo kernel st conn k keyInfo).2.1 = out.keyInfo ∧
      (SMCGetKeyInfo kernel st conn k keyInfo).2.2.g_keyInfoCacheCount = 100 ∧
      (SMCGetKeyInfo kernel st conn k keyInfo).2.2.g_keyInfoCache = st.g_keyInfoCache ∧
      (SMCGetKeyInfo kernel st conn k keyInfo).2.2 =
        { st with calls := st.calls ++ [⟨conn, KERNEL_INDEX_SMC, keyInfoInput k⟩] } := by
  have habs := SMCGetKeyInfo_of_absent kernel st conn k keyInfo hmiss
  rw [hres] at habs
  have hnot : ¬ st.g_keyInfoCacheCount < KEY_INFO_CACHE_SIZE := by omega
  simp only [if_true, hnot, if_false] at habs
  rw [habs]
  exact ⟨rfl, rfl, hfull, rfl, rfl⟩

/-- Every slot of `fullState` holds a key between 1 and 100. -/
theorem fullState_key (i : Nat) (hi : i < 100) :
    (fullState.g_keyInfoCache.getD i KeyInfoCacheEntry.zero).key = i + 1 := by
  simp [fullState, List.getD_eq_getElem?_getD, hi]

/-- Instance of C3: resolving `"TC0P"` on a cache filled with the keys
`1 .. 100`. -/
theorem SMCGetKeyInfo_miss_when_full_witness :
    SMCGetKeyInfo sampleKernel fullState 0 0x54433050 SMCKeyData_keyInfo_t.zero =
      (kIOReturnSuccess, infoSP78,
        { fullState with calls := [⟨0, KERNEL_INDEX_SMC, keyInfoInput 0x54433050⟩] }) :=
  have h := SMCGetKeyInfo_miss_when_full sampleKernel fullState 0 0x54433050
    SMCKeyData_keyInfo_t.zero _ rfl
    (fun i hi => by
      have hi' : i < 100 := hi
      rw [fullState_key i hi']
      omega) rfl
  Prod.ext h.1 (Prod.ext h.2.1 h.2.2.2.2)

/-- **C4** (failure atomicity).  In every state whose first `count` slots do
not hold `k`, if the kernel answers the `READ_KEYINFO` request for `k` with a
code `c` other than `kIOReturnSuccess`, then `SMCGetKeyInfo` returns exactly
`c`, the caller's key-info output holds what it held before the call, and
the cache array and count are unchanged: the state changes in its transaction
trace only, which gains the failed request. -/
theorem SMCGetKeyInfo_failure (kernel : Kernel) (st : SMCState) (conn k : Nat)
    (keyInfo : SMCKeyData_keyInfo_t) (c : Int) (out : SMCKeyData_t)
    (hmiss : ∀ i, i < st.g_keyInfoCacheCount →
      (st.g_keyInfoCache.getD i KeyInfoCacheEntry.zero).key ≠ k)
    (hres : kernel st.calls ⟨conn, KERNEL_INDEX_SMC, keyInfoInput k⟩ SMCKeyData_t.zero =
      (c, out))
    (hc : c ≠ kIOReturnSuccess) :
    SMCGetKeyInfo kernel st conn k keyInfo =
      (c, keyInfo, { st with calls := st.calls ++ [⟨conn, KERNEL_INDEX_SMC, keyInfoInput k⟩] }) ∧
    (SMCGetKeyInfo kernel st conn k keyInfo).2.2.g_keyInfoCache = st.g_keyInfoCache ∧
    (SMCGetKeyInfo kernel st conn k keyInfo).2.2.g_keyInfoCacheCount =
      st.g_keyInfoCacheCount := by
  have habs := SMCGetKeyInfo_of_absent kernel st conn k keyInfo hmiss
  rw [hres] at habs
  simp only [hc, if_false] at habs
  rw [habs]
  exact ⟨rfl, rfl, rfl⟩

/-- Instance of C4: a failing kernel, the warm cache and a key it does not
hold (`"TG0P"`); the caller's record `infoSP78` comes back untouched. -/
theorem SMCGetKeyInfo_failure_witness :
    SMCGetKeyInfo failingKernel warmState 0 0x54473050 infoSP78 =
      (-536870212, infoSP78,
        { warmState with calls := [⟨0, KERNEL_INDEX_SMC, keyInfoInput 0x54473050⟩] }) :=
  (SMCGetKeyInfo_failure failingKernel warmState 0 0x54473050 infoSP78 (-536870212)
    SMCKeyData_t.zero
    (fun i hi => by
      have hi1 : i < 1 := hi
      have hi0 : i = 0 := by omega
      subst hi0
      decide) rfl (by decide)).1

/-! ## Decoders: sentinels -/

/-- The string in an array that ends with a NUL is shorter than the array. -/
theorem cstring_terminated_length (l : List Nat) : (cstring (l ++ [0])).length ≤ l.length := by
  induction l with
  | nil => simp [cstring]
  | cons a l ih =>
    unfold cstring at ih ⊢
    rw [List.cons_append, List.takeWhile_cons]
    split
    · simpa using ih
    · simp

/-- The string that `_ultostr` leaves has at most four characters. -/
theorem cstring_ultostr_length (x : Nat) : (cstring (_ultostr x)).length ≤ 4 :=
  cstring_terminated_length
    [(x / 2 ^ 24) % 256, (x / 2 ^ 16) % 256, (x / 2 ^ 8) % 256, x % 256]

/-- The type tag of a value handed back by `SMCReadKey` is either still
zeroed or was written by `_ultostr`. -/
theorem SMCReadKey_dataType (kernel : Kernel) (st : SMCState) (key : List Nat) :
    (SMCReadKey kernel st key).2.1.dataType = List.replicate 5 0 ∨
      ∃ x, (SMCReadKey kernel st key).2.1.dataType = _ultostr x := by
  unfold SMCReadKey
  simp only
  split
  · left; rfl
  · split
    · right; exact ⟨_, rfl⟩
    · right; exact ⟨_, rfl⟩

/-- The type tag read back is never the five-character string `"sp669"`. -/
theorem SMCReadKey_dataType_ne_SP69 (kernel : Kernel) (st : SMCState) (key : List Nat) :
    cstring (SMCReadKey kernel st key).2.1.dataType ≠ cstring DATATYPE_SP69 := by
  intro h
  have hlen : (cstring (SMCReadKey kernel st key).2.1.dataType).length = 5 := by
    rw [h]; rfl
  rcases SMCReadKey_dataType kernel st key with h0 | ⟨x, hx⟩
  · rw [h0] at hlen
    revert hlen
    decide
  · rw [hx] at hlen
    have := cstring_ultostr_length x
    omega

theorem strcmpEq_false (a lit : List Nat) (h : cstring a ≠ cstring lit) :
    strcmpEq a lit = false := by
  simp [strcmpEq, h]

theorem strcmpEq_true (a lit : List Nat) (h : cstring a = cstring lit) :
    strcmpEq a lit = true := by
  simp [strcmpEq, h]

/-- The temperature decode of a failed read, of an empty value, or of a tag
outside the `strcmp` chain is `0.0`. -/
theorem temperatureOf_sentinel (result : Int) (val : SMCVal_t)
    (h : result ≠ kIOReturnSuccess ∨ val.dataSize = 0 ∨
      (cstring val.dataType ∉ temperatureTags ∧
        cstring val.dataType ≠ cstring DATATYPE_SP69)) :
    temperatureOf result val = CFloat.num 0 := by
  rcases h with h | h | ⟨h, h69⟩
  · simp [temperatureOf, h]
  · simp [temperatureOf, h]
  · have e (t : List Nat) (ht : cstring t ∈ temperatureTags) :
        strcmpEq val.dataType t = false :=
      strcmpEq_false _ _ (fun e => h (e ▸ ht))
    simp only [temperatureOf, e DATATYPE_UINT8 (by decide), e DATATYPE_UINT16 (by decide),
      e DATATYPE_UINT32 (by decide), e DATATYPE_SP1E (by decide), e DATATYPE_SP3C (by decide),
      e DATATYPE_SP4B (by decide), e DATATYPE_SP5A (by decide), e DATATYPE_SP78 (by decide),
      e DATATYPE_SP87 (by decide), e DATATYPE_SP96 (by decide), e DATATYPE_SPB4 (by decide),
      e DATATYPE_SPF0 (by decide), e DATATYPE_FLT (by decide), strcmpEq_false _ _ h69,
      Bool.false_eq_true, if_false, ite_self]

/-- The fan-speed decode of a failed read, of an empty value, or of a tag
other than `flt ` and `fpe2` is `0.0`. -/
theorem fanSpeedOf_sentinel (result : Int) (val : SMCVal_t)
    (h : result ≠ kIOReturnSuccess ∨ val.dataSize = 0 ∨ cstring val.dataType ∉ fanTags) :
    fanSpeedOf result val = CFloat.num 0 := by
  rcases h with h | h | h
  · simp [fanSpeedOf, h]
  · simp [fanSpeedOf, h]
  · have e (t : List Nat) (ht : cstring t ∈ fanTags) : strcmpEq val.dataType t = false :=
      strcmpEq_false _ _ (fun e => h (e ▸ ht))
    simp only [fanSpeedOf, e DATATYPE_FLT (by decide), e DATATYPE_FPE2 (by decide),
      Bool.false_eq_true, if_false, ite_self]

/-- The RPM decode of a failed read, of an empty value, or of a tag other than
`flt ` and `fpe2` is `-1.0`. -/
theorem fanRPMOf_sentinel (result : Int) (val : SMCVal_t) (key : List Nat)
    (h : result ≠ kIOReturnSuccess ∨ val.dataSize = 0 ∨ cstring val.dataType ∉ fanTags) :
    (fanRPMOf result val key).1 = CFloat.num (-1) := by
  rcases h with h | h | h
  · simp [fanRPMOf, h]
  · simp [fanRPMOf, h]
  · have e (t : List Nat) (ht : cstring t ∈ fanTags) : strcmpEq val.dataType t = false :=
      strcmpEq_false _ _ (fun e => h (e ▸ ht))
    simp only [fanRPMOf, e DATATYPE_FLT (by decide), e DATATYPE_FPE2 (by decide),
      Bool.false_eq_true, if_false]
    split
    · split <;> rfl
    · rfl

/-- **C5** (sentinel contract).  For every kernel, state and key: if the
`SMCReadKey` inside the call fails, or hands back `dataSize = 0`, or hands
back a type tag that is not one of the tags the function matches
(`temperatureTags` for `SMCGetTemperature`; `flt ` and `fpe2` for
`SMCGetFanSpeed` and `SMCGetFanRPM`), then `SMCGetTemperature` and
`SMCGetFanSpeed` return exactly `0.0` and `SMCGetFanRPM` returns exactly
`-1.0`.  The kernel, hence the 32 payload bytes, is arbitrary.  Each of the
three is a total function into `CFloat`: it has no error result. -/
theorem sentinel_contract (kernel : Kernel) (st : SMCState) (key : List Nat) :
    (((SMCReadKey kernel st key).1 ≠ kIOReturnSuccess ∨
        (SMCReadKey kernel st key).2.1.dataSize = 0 ∨
        cstring (SMCReadKey kernel st key).2.1.dataType ∉ temperatureTags) →
      (SMCGetTemperature kernel st key).1 = CFloat.num 0) ∧
    (((SMCReadKey kernel st key).1 ≠ kIOReturnSuccess ∨
        (SMCReadKey kernel st key).2.1.dataSize = 0 ∨
        cstring (SMCReadKey kernel st key).2.1.dataType ∉ fanTags) →
      (SMCGetFanSpeed kernel st key).1 = CFloat.num 0) ∧
    (((SMCReadKey kernel st key).1 ≠ kIOReturnSuccess ∨
        (SMCReadKey kernel st key).2.1.dataSize = 0 ∨
        cstring (SMCReadKey kernel st key).2.1.dataType ∉ fanTags) →
      (SMCGetFanRPM kernel st key).1 = CFloat.num (-1)) := by
  refine ⟨fun h => ?_, fun h => ?_, fun h => ?_⟩
  · refine temperatureOf_sentinel _ _ ?_
    rcases h with h | h | h
    · exact Or.inl h
    · exact Or.inr (Or.inl h)
    · exact Or.inr (Or.inr ⟨h, SMCReadKey_dataType_ne_SP69 kernel st key⟩)
  · exact fanSpeedOf_sentinel _ _ h
  · exact fanRPMOf_sentinel _ _ key h

/-- Instance of C5: a read that fails (temperature), a value of type `sp78`
handed to the fan-speed decoder, and a value of type `sp78` handed to the RPM
decoder. -/
theorem sentinel_contract_witness :
    (SMCGetTemperature failingKernel SMCState.init keyTC0P).1 = CFloat.num 0 ∧
      (SMCGetFanSpeed sampleKernel SMCState.init keyTC0P).1 = CFloat.num 0 ∧
      (SMCGetFanRPM sampleKernel SMCState.init keyTC0P).1 = CFloat.num (-1) :=
  ⟨(sentinel_contract failingKernel SMCState.init keyTC0P).1 (Or.inl (by decide)),
    (sentinel_contract sampleKernel SMCState.init keyTC0P).2.1 (Or.inr (Or.inr (by decide))),
    (sentinel_contract sampleKernel SMCState.init keyTC0P).2.2 (Or.inr (Or.inr (by decide)))⟩

/-! ## Decoders: the temperature table -/

theorem strcmpEq_of_cstring (a X T : List Nat) (h : cstring a = X) :
    strcmpEq a T = (X == cstring T) := by
  rw [strcmpEq, h]

/-- The fixed-point branches: byte 0 enters as a signed `char`, byte 1 through
an `(unsigned char)` cast. -/
theorem temperatureOf_fixed (val : SMCVal_t) (D : Nat) (hsize : val.dataSize > 0)
    (htag : (cstring val.dataType, D) ∈ fixedPointTable) :
    temperatureOf kIOReturnSuccess val =
      CFloat.num (((toSChar (val.byte 0) * 256 + (val.byte 1 : Int) : Int) : ℚ) / (D : ℚ)) := by
  simp only [fixedPointTable, List.mem_cons, Prod.mk.injEq, List.mem_singleton, List.not_mem_nil,
    or_false] at htag
  rcases htag with ⟨h, hD⟩ | ⟨h, hD⟩ | ⟨h, hD⟩ | ⟨h, hD⟩ | ⟨h, hD⟩ | ⟨h, hD⟩ | ⟨h, hD⟩ | ⟨h, hD⟩ |
    ⟨h, hD⟩
  all_goals
    subst hD
    simp only [temperatureOf, strcmpEq_of_cstring _ _ _ h, if_true, hsize]
    simp [DATATYPE_UINT8, DATATYPE_UINT16, DATATYPE_UINT32, DATATYPE_SP1E, DATATYPE_SP3C,
      DATATYPE_SP4B, DATATYPE_SP5A, DATATYPE_SP69, DATATYPE_SP78, DATATYPE_SP87, DATATYPE_SP96,
      DATATYPE_SPB4, DATATYPE_SPF0, DATATYPE_FLT, cstring, List.takeWhile]

theorem SMCGetTemperature_fixed (kernel : Kernel) (st : SMCState) (key : List Nat) (D : Nat)
    (hok : (SMCReadKey kernel st key).1 = kIOReturnSuccess)
    (hsize : (SMCReadKey kernel st key).2.1.dataSize > 0)
    (htag : (cstring (SMCReadKey kernel st key).2.1.dataType, D) ∈ fixedPointTable) :
    (SMCGetTemperature kernel st key).1 =
      CFloat.num (((toSChar ((SMCReadKey kernel st key).2.1.byte 0) * 256 +
        ((SMCReadKey kernel st key).2.1.byte 1 : Int) : Int) : ℚ) / (D : ℚ)) := by
  show temperatureOf (SMCReadKey kernel st key).1 (SMCReadKey kernel st key).2.1 = _
  rw [hok]
  exact temperatureOf_fixed _ D hsize htag

theorem fixedPointTable_pos (t : List Nat) (D : Nat) (h : (t, D) ∈ fixedPointTable) : 0 < D := by
  simp only [fixedPointTable, List.mem_cons, Prod.mk.injEq, List.mem_singleton, List.not_mem_nil,
    or_false] at h
  omega

/-- Counterexample to C6 as stated: a successful read of type `sp78` whose
payload starts `0x80, 0x00`.  The unsigned formula gives
`(128 * 256 + 0) / 256 = 128`; `SMCGetTemperature` returns `-128`. -/
theorem fixed_point_unsigned_counterexample :
    (SMCReadKey (constKernel infoSP78 [0x80, 0x00]) SMCState.init keyTC0P).1 = kIOReturnSuccess ∧
      (SMCReadKey (constKernel infoSP78 [0x80, 0x00]) SMCState.init keyTC0P).2.1.dataSize > 0 ∧
      cstring (SMCReadKey (constKernel infoSP78 [0x80, 0x00]) SMCState.init keyTC0P).2.1.dataType
        = DATATYPE_SP78 ∧
      (SMCReadKey (constKernel infoSP78 [0x80, 0x00]) SMCState.init keyTC0P).2.1.byte 0 = 0x80 ∧
      (SMCReadKey (constKernel infoSP78 [0x80, 0x00]) SMCState.init keyTC0P).2.1.byte 1 = 0x00 ∧
      (SMCGetTemperature (constKernel infoSP78 [0x80, 0x00]) SMCState.init keyTC0P).1 =
        CFloat.num (-128) ∧
      (SMCGetTemperature (constKernel infoSP78 [0x80, 0x00]) SMCState.init keyTC0P).1 ≠
        CFloat.num (((0x80 * 256 + 0x00 : Nat) : ℚ) / 256) := by
  have h := SMCGetTemperature_fixed (constKernel infoSP78 [0x80, 0x00]) SMCState.init keyTC0P 256
    rfl (by decide) (by decide)
  have e : toSChar ((SMCReadKey (constKernel infoSP78 [0x80, 0x00]) SMCState.init
      keyTC0P).2.1.byte 0) * 256 +
      ((SMCReadKey (constKernel infoSP78 [0x80, 0x00]) SMCState.init keyTC0P).2.1.byte 1 : Int)
      = -32768 := by decide
  rw [e] at h
  refine ⟨rfl, by decide, by decide, by decide, by decide, ?_, ?_⟩
  · rw [h]; norm_num
  · rw [h]; norm_num

/-- **C6, amended** (fixed-point temperature table).  For every successful
read with `dataSize > 0` whose tag is one of sp1e, sp3c, sp4b, sp5a, sp78,
sp87, sp96, spb4, spf0, and for every payload, `SMCGetTemperature` returns
`(s0 * 256 + byte1) / D` with `D` = 16384, 4096, 2048, 1024, 256, 128, 64,
16, 1 respectively, where `byte1` is unsigned and `s0` is byte 0 read as a
signed `char` (`byte0` for `0..127`, `byte0 - 256` for `128..255`).  Hence
for `byte0 ≤ 127` the result is the unsigned formula `(byte0 * 256 + byte1) / D`
and is not negative, and for `byte0` in `128..255` the result is negative. -/
theorem SMCGetTemperature_fixed_point (kernel : Kernel) (st : SMCState) (key : List Nat)
    (D : Nat)
    (hok : (SMCReadKey kernel st key).1 = kIOReturnSuccess)
    (hsize : (SMCReadKey kernel st key).2.1.dataSize > 0)
    (htag : (cstring (SMCReadKey kernel st key).2.1.dataType, D) ∈ fixedPointTable) :
    (SMCGetTemperature kernel st key).1 =
        CFloat.num (((toSChar ((SMCReadKey kernel st key).2.1.byte 0) * 256 +
          ((SMCReadKey kernel st key).2.1.byte 1 : Int) : Int) : ℚ) / (D : ℚ)) ∧
      ((SMCReadKey kernel st key).2.1.byte 0 < 128 →
        (SMCGetTemperature kernel st key).1 =
            CFloat.num ((((SMCReadKey kernel st key).2.1.byte 0 * 256 +
              (SMCReadKey kernel st key).2.1.byte 1 : Nat) : ℚ) / (D : ℚ)) ∧
          (0 : ℚ) ≤ (((SMCReadKey kernel st key).2.1.byte 0 * 256 +
            (SMCReadKey kernel st key).2.1.byte 1 : Nat) : ℚ) / (D : ℚ)) ∧
      (128 ≤ (SMCReadKey kernel st key).2.1.byte 0 →
        (SMCReadKey kernel st key).2.1.byte 0 < 256 →
        (SMCReadKey kernel st key).2.1.byte 1 < 256 →
        ((toSChar ((SMCReadKey kernel st key).2.1.byte 0) * 256 +
          ((SMCReadKey kernel st key).2.1.byte 1 : Int) : Int) : ℚ) / (D : ℚ) < 0) := by
  have h := SMCGetTemperature_fixed kernel st key D hok hsize htag
  have hD : (0 : ℚ) < (D : ℚ) := by
    exact_mod_cast fixedPointTable_pos _ D htag
  refine ⟨h, ?_, ?_⟩
  · intro hb
    refine ⟨?_, by positivity⟩
    rw [h]
    simp only [toSChar, hb, if_true]
    push_cast
    rfl
  · intro hb0 hb1 hb2
    have hnot : ¬ (SMCReadKey kernel st key).2.1.byte 0 < 128 := by omega
    simp only [toSChar, hnot, if_false]
    apply div_neg_of_neg_of_pos _ hD
    have : ((SMCReadKey kernel st key).2.1.byte 0 : Int) - 256 ≤ -1 := by omega
    have hlt : (((SMCReadKey kernel st key).2.1.byte 0 : Int) - 256) * 256 +
        ((SMCReadKey kernel st key).2.1.byte 1 : Int) < 0 := by omega
    exact_mod_cast hlt

/-- Instance of C6 (amended): type `sp78`, payload `0x01, 0x40`, value `1.25`. -/
theorem SMCGetTemperature_fixed_point_witness :
    (SMCGetTemperature sampleKernel SMCState.init keyTC0P).1 = CFloat.num (5 / 4) := by
  have h := ((SMCGetTemperature_fixed_point sampleKernel SMCState.init keyTC0P 256 rfl
    (by decide) (by decide)).2.1 (by decide)).1
  have e : (SMCReadKey sampleKernel SMCState.init keyTC0P).2.1.byte 0 * 256 +
      (SMCReadKey sampleKernel SMCState.init keyTC0P).2.1.byte 1 = 320 := by decide
  rw [e] at h
  rw [h]
  norm_num

/-- **C7** (the `sp69` row) fails on the code.  A successful read of type
`sp69` with two payload bytes `0x01, 0x00` should decode to
`(1 * 256 + 0) / 512 = 0.5`; the `strcmp` against `DATATYPE_SP69`, which is
spelt `"sp669"`, cannot match a four-character tag, no other branch matches
either, and `SMCGetTemperature` returns the sentinel `0.0`. -/
theorem SMCGetTemperature_sp69_dead :
    (SMCReadKey (constKernel ⟨2, 0x73703639, 0⟩ [0x01, 0x00]) SMCState.init keyTC0P).1 =
        kIOReturnSuccess ∧
      (SMCReadKey (constKernel ⟨2, 0x73703639, 0⟩ [0x01, 0x00]) SMCState.init
        keyTC0P).2.1.dataSize = 2 ∧
      (SMCReadKey (constKernel ⟨2, 0x73703639, 0⟩ [0x01, 0x00]) SMCState.init
        keyTC0P).2.1.dataType = tagSP69 ++ [0] ∧
      (SMCReadKey (constKernel ⟨2, 0x73703639, 0⟩ [0x01, 0x00]) SMCState.init
        keyTC0P).2.1.byte 0 = 0x01 ∧
      (SMCReadKey (constKernel ⟨2, 0x73703639, 0⟩ [0x01, 0x00]) SMCState.init
        keyTC0P).2.1.byte 1 = 0x00 ∧
      (SMCGetTemperature (constKernel ⟨2, 0x73703639, 0⟩ [0x01, 0x00]) SMCState.init
        keyTC0P).1 = CFloat.num 0 ∧
      CFloat.num 0 ≠ CFloat.num (((0x01 * 256 + 0x00 : Nat) : ℚ) / 512) := by
  refine ⟨rfl, by decide, by decide, by decide, by decide, ?_, ?_⟩
  · exact temperatureOf_sentinel
      (SMCReadKey (constKernel ⟨2, 0x73703639, 0⟩ [0x01, 0x00]) SMCState.init keyTC0P).1
      (SMCReadKey (constKernel ⟨2, 0x73703639, 0⟩ [0x01, 0x00]) SMCState.init keyTC0P).2.1
      (Or.inr (Or.inr ⟨by decide, by decide⟩))
  · norm_num

/-- The unsigned-integer branches: each byte enters as a signed `char`. -/
theorem temperatureOf_uint (val : SMCVal_t) (hsize : val.dataSize > 0) :
    (cstring val.dataType = DATATYPE_UINT8 →
      temperatureOf kIOReturnSuccess val = CFloat.num ((toSChar (val.byte 0) : Int) : ℚ)) ∧
    (cstring val.dataType = DATATYPE_UINT16 →
      temperatureOf kIOReturnSuccess val =
        CFloat.num ((toSChar (val.byte 0) + toSChar (val.byte 1) : Int) : ℚ)) ∧
    (cstring val.dataType = DATATYPE_UINT32 →
      temperatureOf kIOReturnSuccess val =
        CFloat.num ((toSChar (val.byte 0) + toSChar (val.byte 1) + toSChar (val.byte 2) +
          toSChar (val.byte 3) : Int) : ℚ)) := by
  refine ⟨fun h => ?_, fun h => ?_, fun h => ?_⟩
  all_goals
    simp only [temperatureOf, strcmpEq_of_cstring _ _ _ h, if_true, hsize]
    simp [DATATYPE_UINT8, DATATYPE_UINT16, DATATYPE_UINT32, cstring, List.takeWhile]

theorem toSChar_small (b : Nat) (h : b ≤ 127) : toSChar b = (b : Int) := by
  have hb : b < 128 := by omega
  simp [toSChar, hb]

/-- **C8** (unsigned-integer tags).  For every successful read with
`dataSize > 0` whose first four payload bytes are each at most 127,
`SMCGetTemperature` returns `byte0` for tag `ui8 `, `byte0 + byte1` for tag
`ui16` and `byte0 + byte1 + byte2 + byte3` for tag `ui32`: the sum of the
bytes. -/
theorem SMCGetTemperature_uint (kernel : Kernel) (st : SMCState) (key : List Nat)
    (hok : (SMCReadKey kernel st key).1 = kIOReturnSuccess)
    (hsize : (SMCReadKey kernel st key).2.1.dataSize > 0)
    (h0 : (SMCReadKey kernel st key).2.1.byte 0 ≤ 127)
    (h1 : (SMCReadKey kernel st key).2.1.byte 1 ≤ 127)
    (h2 : (SMCReadKey kernel st key).2.1.byte 2 ≤ 127)
    (h3 : (SMCReadKey kernel st key).2.1.byte 3 ≤ 127) :
    (cstring (SMCReadKey kernel st key).2.1.dataType = DATATYPE_UINT8 →
      (SMCGetTemperature kernel st key).1 =
        CFloat.num (((SMCReadKey kernel st key).2.1.byte 0 : Nat) : ℚ)) ∧
    (cstring (SMCReadKey kernel st key).2.1.dataType = DATATYPE_UINT16 →
      (SMCGetTemperature kernel st key).1 =
        CFloat.num (((SMCReadKey kernel st key).2.1.byte 0 +
          (SMCReadKey kernel st key).2.1.byte 1 : Nat) : ℚ)) ∧
    (cstring (SMCReadKey kernel st key).2.1.dataType = DATATYPE_UINT32 →
      (SMCGetTemperature kernel st key).1 =
        CFloat.num (((SMCReadKey kernel st key).2.1.byte 0 +
          (SMCReadKey kernel st key).2.1.byte 1 + (SMCReadKey kernel st key).2.1.byte 2 +
          (SMCReadKey kernel st key).2.1.byte 3 : Nat) : ℚ)) := by
  have hT : (SMCGetTemperature kernel st key).1 =
      temperatureOf kIOReturnSuccess (SMCReadKey kernel st key).2.1 := by
    show temperatureOf (SMCReadKey kernel st key).1 (SMCReadKey kernel st key).2.1 = _
    rw [hok]
  have hu := temperatureOf_uint (SMCReadKey kernel st key).2.1 hsize
  rw [toSChar_small _ h0, toSChar_small _ h1, toSChar_small _ h2, toSChar_small _ h3] at hu
  refine ⟨fun h => ?_, fun h => ?_, fun h => ?_⟩
  · rw [hT, hu.1 h]
    push_cast
    rfl
  · rw [hT, hu.2.1 h]
    push_cast
    rfl
  · rw [hT, hu.2.2 h]
    push_cast
    rfl

/-- Instance of C8: type `ui16`, payload `0x01, 0x02`: the value is `3`, not
`258`. -/
theorem SMCGetTemperature_uint_witness :
    (SMCGetTemperature (constKernel ⟨2, 0x75693136, 0⟩ [0x01, 0x02]) SMCState.init keyTC0P).1 =
        CFloat.num 3 ∧
      (SMCGetTemperature (constKernel ⟨2, 0x75693136, 0⟩ [0x01, 0x02]) SMCState.init keyTC0P).1 ≠
        CFloat.num 258 := by
  have h := (SMCGetTemperature_uint (constKernel ⟨2, 0x75693136, 0⟩ [0x01, 0x02]) SMCState.init
    keyTC0P rfl (by decide) (by decide) (by decide) (by decide) (by decide)).2.1 (by decide)
  have e : (SMCReadKey (constKernel ⟨2, 0x75693136, 0⟩ [0x01, 0x02]) SMCState.init
      keyTC0P).2.1.byte 0 +
      (SMCReadKey (constKernel ⟨2, 0x75693136, 0⟩ [0x01, 0x02]) SMCState.init
        keyTC0P).2.1.byte 1 = 3 := by decide
  rw [e] at h
  rw [h]
  constructor
  · norm_num
  · norm_num

/-! ## Decoders: fan speed and RPM -/

theorem fanSpeedOf_decode (val : SMCVal_t) (hsize : val.dataSize > 0)
    (htag : cstring val.dataType = DATATYPE_FPE2 ∨ cstring val.dataType = DATATYPE_FLT) :
    fanSpeedOf kIOReturnSuccess val =
      CFloat.num ((((val.byte 0 : Int) * 256 + (val.byte 1 : Int) : Int) : ℚ) / 4) := by
  rcases htag with h | h
  all_goals
    simp only [fanSpeedOf, strcmpEq_of_cstring _ _ _ h, if_true, hsize]
    simp [DATATYPE_FPE2, DATATYPE_FLT, cstring, List.takeWhile]

theorem ntohs_load (b0 b1 : Nat) (h0 : b0 < 256) (h1 : b1 < 256) :
    ntohs (b0 + b1 * 2 ^ 8) = b0 * 256 + b1 := by
  unfold ntohs
  omega

theorem fanRPMOf_fpe2 (val : SMCVal_t) (key : List Nat) (hsize : val.dataSize > 0)
    (htag : cstring val.dataType = DATATYPE_FPE2) :
    (fanRPMOf kIOReturnSuccess val key).1 =
      CFloat.num (((ntohs (val.byte 0 + val.byte 1 * 2 ^ 8) : Int) : ℚ) / 4) := by
  simp only [fanRPMOf, strcmpEq_of_cstring _ _ _ htag, if_true, hsize]
  simp [DATATYPE_FPE2, DATATYPE_FLT, cstring, List.takeWhile]

/-- The fan-speed decoder never hands back a reinterpreted float. -/
theorem fanSpeedOf_num (result : Int) (val : SMCVal_t) (bits : Nat) :
    fanSpeedOf result val ≠ CFloat.float32 bits := by
  unfold fanSpeedOf
  repeat' split
  all_goals simp

/-- **C9** (fan decode formula).  For every successful read with
`dataSize > 0` and every payload whose first two bytes are `byte0`, `byte1`
(any values `0..255`): `SMCGetFanSpeed` on tag `fpe2` or tag `flt ` and
`SMCGetFanRPM` on tag `fpe2` return `(byte0 * 256 + byte1) / 4`, both bytes
unsigned; that value lies in `[0, 16383.75]`; and `SMCGetFanSpeed` never
returns a reinterpreted IEEE float, whatever the read gave. -/
theorem fan_decode (kernel : Kernel) (st : SMCState) (key : List Nat)
    (hok : (SMCReadKey kernel st key).1 = kIOReturnSuccess)
    (hsize : (SMCReadKey kernel st key).2.1.dataSize > 0)
    (h0 : (SMCReadKey kernel st key).2.1.byte 0 < 256)
    (h1 : (SMCReadKey kernel st key).2.1.byte 1 < 256) :
    ((cstring (SMCReadKey kernel st key).2.1.dataType = DATATYPE_FPE2 ∨
        cstring (SMCReadKey kernel st key).2.1.dataType = DATATYPE_FLT) →
      (SMCGetFanSpeed kernel st key).1 =
        CFloat.num ((((SMCReadKey kernel st key).2.1.byte 0 * 256 +
          (SMCReadKey kernel st key).2.1.byte 1 : Nat) : ℚ) / 4)) ∧
    (cstring (SMCReadKey kernel st key).2.1.dataType = DATATYPE_FPE2 →
      (SMCGetFanRPM kernel st key).1 =
        CFloat.num ((((SMCReadKey kernel st key).2.1.byte 0 * 256 +
          (SMCReadKey kernel st key).2.1.byte 1 : Nat) : ℚ) / 4)) ∧
    (0 : ℚ) ≤ (((SMCReadKey kernel st key).2.1.byte 0 * 256 +
      (SMCReadKey kernel st key).2.1.byte 1 : Nat) : ℚ) / 4 ∧
    (((SMCReadKey kernel st key).2.1.byte 0 * 256 +
      (SMCReadKey kernel st key).2.1.byte 1 : Nat) : ℚ) / 4 ≤ 16383.75 ∧
    ∀ bits : Nat, (SMCGetFanSpeed kernel st key).1 ≠ CFloat.float32 bits := by
  refine ⟨fun h => ?_, fun h => ?_, by positivity, ?_, fun bits => fanSpeedOf_num _ _ bits⟩
  · show fanSpeedOf (SMCReadKey kernel st key).1 (SMCReadKey kernel st key).2.1 = _
    rw [hok, fanSpeedOf_decode _ hsize h]
    push_cast
    rfl
  · show (fanRPMOf (SMCReadKey kernel st key).1 (SMCReadKey kernel st key).2.1 key).1 = _
    rw [hok, fanRPMOf_fpe2 _ key hsize h, ntohs_load _ _ h0 h1]
    push_cast
    rfl
  · have hle : (SMCReadKey kernel st key).2.1.byte 0 * 256 +
        (SMCReadKey kernel st key).2.1.byte 1 ≤ 65535 := by omega
    have hq : (((SMCReadKey kernel st key).2.1.byte 0 * 256 +
        (SMCReadKey kernel st key).2.1.byte 1 : Nat) : ℚ) ≤ 65535 := by exact_mod_cast hle
    push_cast at hq ⊢
    norm_num
    linarith

/-- Instance of C9: type `fpe2`, payload `0x02, 0x00`: both decoders give
`128`. -/
theorem fan_decode_witness :
    (SMCGetFanSpeed (constKernel ⟨2, 0x66706532, 0⟩ [0x02, 0x00]) SMCState.init keyTC0P).1 =
        CFloat.num 128 ∧
      (SMCGetFanRPM (constKernel ⟨2, 0x66706532, 0⟩ [0x02, 0x00]) SMCState.init keyTC0P).1 =
        CFloat.num 128 := by
  have h := fan_decode (constKernel ⟨2, 0x66706532, 0⟩ [0x02, 0x00]) SMCState.init keyTC0P rfl
    (by decide) (by decide) (by decide)
  have e : (SMCReadKey (constKernel ⟨2, 0x66706532, 0⟩ [0x02, 0x00]) SMCState.init
      keyTC0P).2.1.byte 0 * 256 +
      (SMCReadKey (constKernel ⟨2, 0x66706532, 0⟩ [0x02, 0x00]) SMCState.init
        keyTC0P).2.1.byte 1 = 512 := by decide
  have hs := h.1 (Or.inl (by decide))
  have hr := h.2.1 (by decide)
  rw [e] at hs hr
  rw [hs, hr]
  constructor <;> norm_num

/-! ## Key packing -/

/-- The hexadecimal path of `_strtoul` on four characters, loop unrolled. -/
theorem strtoul_hex4 (b0 b1 b2 b3 : Nat) (rest : List Nat) :
    _strtoul (b0 :: b1 :: b2 :: b3 :: rest) 4 16 =
      Int.toNat (((Int.toNat (((Int.toNat (((Int.toNat ((toSChar b0 * 16777216) % 4294967296)
        : Nat) + toSChar b1 * 65536) % 4294967296) : Nat) + toSChar b2 * 256) % 4294967296)
        : Nat) + toSChar b3) % 4294967296) := by
  show strtoulStep _ 4 16 3 (strtoulStep _ 4 16 2 (strtoulStep _ 4 16 1
        (strtoulStep _ 4 16 0 0))) = _
  simp only [strtoulStep, if_true, List.getD_cons_zero, List.getD_cons_succ]
  have e0 : (((4 - 1 - (((0 : Nat) : Int))) * 8) % 32).toNat = 24 := by decide
  have e1 : (((4 - 1 - (((1 : Nat) : Int))) * 8) % 32).toNat = 16 := by decide
  have e2 : (((4 - 1 - (((2 : Nat) : Int))) * 8) % 32).toNat = 8 := by decide
  have e3 : (((4 - 1 - (((3 : Nat) : Int))) * 8) % 32).toNat = 0 := by decide
  rw [e0, e1, e2, e3]
  norm_num

/-- Unpacking after packing on arbitrary byte values: the four characters come
back exactly when the second, third and fourth are below 128.  Keys are made
of ASCII characters, all below 128. -/
theorem strtoul_ultostr_iff (b0 b1 b2 b3 : Nat) (rest : List Nat)
    (h0 : b0 < 256) (h1 : b1 < 256) (h2 : b2 < 256) (h3 : b3 < 256) :
    _ultostr (_strtoul (b0 :: b1 :: b2 :: b3 :: rest) 4 16) = [b0, b1, b2, b3, 0] ↔
      (b1 < 128 ∧ b2 < 128 ∧ b3 < 128) := by
  rw [strtoul_hex4]
  simp only [_ultostr, toSChar]
  simp only [List.cons.injEq, and_true]
  split_ifs <;> omega

/-- **C10** (key packing round trip).  For every 4-character key `s`, that
is four ASCII characters `b0 b1 b2 b3` (each below 128) followed by anything
(in the program, the terminator), `_strtoul(s, 4, 16)` is the big-endian
integer `b0 * 2^24 + b1 * 2^16 + b2 * 2^8 + b3`, and unpacking it gives `s`
back: `_ultostr(_strtoul(s, 4, 16))` writes exactly the four characters of `s`
followed by the terminator. -/
theorem key_round_trip (b0 b1 b2 b3 : Nat) (rest : List Nat)
    (h0 : b0 < 128) (h1 : b1 < 128) (h2 : b2 < 128) (h3 : b3 < 128) :
    _strtoul (b0 :: b1 :: b2 :: b3 :: rest) 4 16 =
        b0 * 2 ^ 24 + b1 * 2 ^ 16 + b2 * 2 ^ 8 + b3 ∧
      _ultostr (_strtoul (b0 :: b1 :: b2 :: b3 :: rest) 4 16) = [b0, b1, b2, b3, 0] := by
  have hpack : _strtoul (b0 :: b1 :: b2 :: b3 :: rest) 4 16 =
      b0 * 2 ^ 24 + b1 * 2 ^ 16 + b2 * 2 ^ 8 + b3 := by
    rw [strtoul_hex4, toSChar_small b0 (by omega), toSChar_small b1 (by omega),
      toSChar_small b2 (by omega), toSChar_small b3 (by omega)]
    omega
  refine ⟨hpack, ?_⟩
  rw [hpack]
  simp only [_ultostr, List.cons.injEq, and_true]
  omega

/-- Instance of C10: the key `"TC0P"` packs to `0x54433050` and survives the
round trip. -/
theorem key_round_trip_witness :
    _strtoul keyTC0P 4 16 = 0x54433050 ∧ _ultostr (_strtoul keyTC0P 4 16) = keyTC0P :=
  key_round_trip 0x54 0x43 0x30 0x50 [0] (by decide) (by decide) (by decide) (by decide)

/-! ## Value reader: results, errors, transactions -/

/-- `SMCReadKey` in terms of its two steps: the key-info resolution, with
result `c`, key info `info` and state `st1`, and the `READ_BYTES` call. -/
theorem SMCReadKey_of (kernel : Kernel) (st : SMCState) (key : List Nat) (c : Int)
    (info : SMCKeyData_keyInfo_t) (st1 : SMCState)
    (h : SMCGetKeyInfo kernel st st.conn (_strtoul key 4 16) SMCKeyData_keyInfo_t.zero =
      (c, info, st1)) :
    SMCReadKey kernel st key =
      if c ≠ kIOReturnSuccess then (c, { SMCVal_t.zero with key := memcpy key 5 }, st1)
      else
        if (kernel st1.calls
            ⟨st1.conn, KERNEL_INDEX_SMC, readBytesInput (_strtoul key 4 16) info.dataSize⟩
            { SMCKeyData_t.zero with keyInfo := info }).1 ≠ kIOReturnSuccess then
          ((kernel st1.calls
              ⟨st1.conn, KERNEL_INDEX_SMC, readBytesInput (_strtoul key 4 16) info.dataSize⟩
              { SMCKeyData_t.zero with keyInfo := info }).1,
            { SMCVal_t.zero with
              key := memcpy key 5
              dataSize := info.dataSize
              dataType := _ultostr info.dataType },
            { st1 with
              calls := st1.calls ++
                [⟨st1.conn, KERNEL_INDEX_SMC,
                  readBytesInput (_strtoul key 4 16) info.dataSize⟩] })
        else
          (kIOReturnSuccess,
            { key := memcpy key 5
              dataSize := info.dataSize
              dataType := _ultostr info.dataType
              bytes := memcpy (kernel st1.calls
                ⟨st1.conn, KERNEL_INDEX_SMC, readBytesInput (_strtoul key 4 16) info.dataSize⟩
                { SMCKeyData_t.zero with keyInfo := info }).2.bytes 32 },
            { st1 with
              calls := st1.calls ++
                [⟨st1.conn, KERNEL_INDEX_SMC,
                  readBytesInput (_strtoul key 4 16) info.dataSize⟩] }) := by
  have e1 : c = (SMCGetKeyInfo kernel st st.conn (_strtoul key 4 16)
      SMCKeyData_keyInfo_t.zero).1 := by rw [h]
  have e2 : info = (SMCGetKeyInfo kernel st st.conn (_strtoul key 4 16)
      SMCKeyData_keyInfo_t.zero).2.1 := by rw [h]
  have e3 : st1 = (SMCGetKeyInfo kernel st st.conn (_strtoul key 4 16)
      SMCKeyData_keyInfo_t.zero).2.2 := by rw [h]
  subst e1 e2 e3
  rfl

/-- Copying as many bytes as the source holds gives the source. -/
theorem memcpy_eq_self (n : Nat) (l : List Nat) (h : l.length = n) : memcpy l n = l := by
  induction n generalizing l with
  | zero =>
    have hl : l = [] := List.eq_nil_of_length_eq_zero h
    subst hl
    rfl
  | succ n ih =>
    cases l with
    | nil => simp at h
    | cons a t =>
      have ht : t.length = n := by simpa using h
      simp only [memcpy, List.headD_cons, List.tail_cons, ih t ht]

/-- The characters `_ultostr` writes, with shifts and masks. -/
theorem ultostr_bits (t : Nat) :
    _ultostr t =
      [(t >>> 24) &&& 0xFF, (t >>> 16) &&& 0xFF, (t >>> 8) &&& 0xFF, t &&& 0xFF, 0] := by
  have m (x : Nat) : x &&& 0xFF = x % 256 := Nat.and_pow_two_sub_one_eq_mod x 8
  simp only [_ultostr, m, Nat.shiftRight_eq_div_pow]

/-- **C11** (result of a successful read).  For every kernel, state and key
`b0 b1 b2 b3` followed by `rest`: if the key-info resolution succeeds with
key info `info` (`dataSize = n`, `dataType = t`) and the kernel answers the
`READ_BYTES` request with success and a 32-byte payload, then `SMCReadKey`
returns success; `val.key` holds the four key characters (and the character
that follows them); `val.dataSize = n`; `val.dataType` holds the characters
`(t >> 24) & 0xFF`, `(t >> 16) & 0xFF`, `(t >> 8) & 0xFF`, `t & 0xFF` in that
order and a terminator; and `val.bytes` is the whole payload of the
response. -/
theorem SMCReadKey_success (kernel : Kernel) (st : SMCState) (b0 b1 b2 b3 : Nat)
    (rest : List Nat) (info : SMCKeyData_keyInfo_t) (st1 : SMCState) (out : SMCKeyData_t)
    (hinfo : SMCGetKeyInfo kernel st st.conn (_strtoul (b0 :: b1 :: b2 :: b3 :: rest) 4 16)
      SMCKeyData_keyInfo_t.zero = (kIOReturnSuccess, info, st1))
    (hbytes : kernel st1.calls
      ⟨st1.conn, KERNEL_INDEX_SMC,
        readBytesInput (_strtoul (b0 :: b1 :: b2 :: b3 :: rest) 4 16) info.dataSize⟩
      { SMCKeyData_t.zero with keyInfo := info } = (kIOReturnSuccess, out))
    (hlen : out.bytes.length = 32) :
    (SMCReadKey kernel st (b0 :: b1 :: b2 :: b3 :: rest)).1 = kIOReturnSuccess ∧
      (SMCReadKey kernel st (b0 :: b1 :: b2 :: b3 :: rest)).2.1.key =
        [b0, b1, b2, b3, rest.headD 0] ∧
      (SMCReadKey kernel st (b0 :: b1 :: b2 :: b3 :: rest)).2.1.dataSize = info.dataSize ∧
      (SMCReadKey kernel st (b0 :: b1 :: b2 :: b3 :: rest)).2.1.dataType =
        [(info.dataType >>> 24) &&& 0xFF, (info.dataType >>> 16) &&& 0xFF,
          (info.dataType >>> 8) &&& 0xFF, info.dataType &&& 0xFF, 0] ∧
      (SMCReadKey kernel st (b0 :: b1 :: b2 :: b3 :: rest)).2.1.bytes = out.bytes := by
  rw [SMCReadKey_of kernel st _ _ _ _ hinfo, if_neg (fun h => h rfl), hbytes,
    if_neg (fun h => h rfl)]
  exact ⟨rfl, rfl, rfl, ultostr_bits info.dataType, memcpy_eq_self 32 out.bytes hlen⟩

/-- Instance of C11: reading `"TC0P"` on the empty cache from a kernel that
answers with two bytes of type `sp78`. -/
theorem SMCReadKey_success_witness :
    (SMCReadKey sampleKernel SMCState.init keyTC0P).1 = kIOReturnSuccess ∧
      (SMCReadKey sampleKernel SMCState.init keyTC0P).2.1.key = [0x54, 0x43, 0x30, 0x50, 0] ∧
      (SMCReadKey sampleKernel SMCState.init keyTC0P).2.1.dataSize = 2 ∧
      (SMCReadKey sampleKernel SMCState.init keyTC0P).2.1.dataType =
        [0x73, 0x70, 0x37, 0x38, 0] ∧
      (SMCReadKey sampleKernel SMCState.init keyTC0P).2.1.bytes =
        [0x01, 0x40] ++ List.replicate 30 0 :=
  SMCReadKey_success sampleKernel SMCState.init 0x54 0x43 0x30 0x50 [0] infoSP78 _ _ rfl rfl rfl

/-- **C12** (error propagation of a read).  Let the key-info resolution inside
`SMCReadKey` return code `c`, key info `info` and state `st1`.  Then
`SMCReadKey` returns success if and only if `c` is success and the kernel
answers the `READ_BYTES` request with success.  If `c` is not success,
`SMCReadKey` returns exactly `c`, its final state is `st1` (so nothing is
issued after the failed `READ_KEYINFO` request, which is the only request
added to the trace) and `val.bytes` is all zero.  If `c` is success and the
`READ_BYTES` request is answered with a code other than success, `SMCReadKey`
returns exactly that code and `val.bytes` is all zero. -/
theorem SMCReadKey_errors (kernel : Kernel) (st : SMCState) (key : List Nat) (c : Int)
    (info : SMCKeyData_keyInfo_t) (st1 : SMCState)
    (h : SMCGetKeyInfo kernel st st.conn (_strtoul key 4 16) SMCKeyData_keyInfo_t.zero =
      (c, info, st1)) :
    ((SMCReadKey kernel st key).1 = kIOReturnSuccess ↔
        c = kIOReturnSuccess ∧
          (kernel st1.calls
            ⟨st1.conn, KERNEL_INDEX_SMC, readBytesInput (_strtoul key 4 16) info.dataSize⟩
            { SMCKeyData_t.zero with keyInfo := info }).1 = kIOReturnSuccess) ∧
      (c ≠ kIOReturnSuccess →
        (SMCReadKey kernel st key).1 = c ∧
          (SMCReadKey kernel st key).2.2 = st1 ∧
          st1.calls = st.calls ++ [⟨st.conn, KERNEL_INDEX_SMC, keyInfoInput (_strtoul key 4 16)⟩] ∧
          (SMCReadKey kernel st key).2.1.bytes = List.replicate 32 0) ∧
      (c = kIOReturnSuccess →
        (kernel st1.calls
          ⟨st1.conn, KERNEL_INDEX_SMC, readBytesInput (_strtoul key 4 16) info.dataSize⟩
          { SMCKeyData_t.zero with keyInfo := info }).1 ≠ kIOReturnSuccess →
        (SMCReadKey kernel st key).1 =
            (kernel st1.calls
              ⟨st1.conn, KERNEL_INDEX_SMC, readBytesInput (_strtoul key 4 16) info.dataSize⟩
              { SMCKeyData_t.zero with keyInfo := info }).1 ∧
          (SMCReadKey kernel st key).2.1.bytes = List.replicate 32 0) := by
  rw [SMCReadKey_of kernel st key c info st1 h]
  refine ⟨?_, ?_, ?_⟩
  · by_cases hc : c = kIOReturnSuccess
    · by_cases hb : (kernel st1.calls
          ⟨st1.conn, KERNEL_INDEX_SMC, readBytesInput (_strtoul key 4 16) info.dataSize⟩
          { SMCKeyData_t.zero with keyInfo := info }).1 = kIOReturnSuccess
      · simp [hc, hb]
      · simp [hc, hb]
    · simp [hc]
  · intro hc
    rw [if_pos hc]
    refine ⟨rfl, rfl, ?_, rfl⟩
    by_cases hp : ∃ i, i < st.g_keyInfoCacheCount ∧
        (st.g_keyInfoCache.getD i KeyInfoCacheEntry.zero).key = _strtoul key 4 16
    · obtain ⟨i, _, _, _, hhit⟩ := SMCGetKeyInfo_first kernel st st.conn (_strtoul key 4 16)
        SMCKeyData_keyInfo_t.zero hp
      rw [hhit] at h
      exact absurd (congrArg Prod.fst h).symm hc
    · have hmiss : ∀ i, i < st.g_keyInfoCacheCount →
          (st.g_keyInfoCache.getD i KeyInfoCacheEntry.zero).key ≠ _strtoul key 4 16 :=
        fun i hi e => hp ⟨i, hi, e⟩
      rw [SMCGetKeyInfo_of_absent kernel st st.conn _ _ hmiss] at h
      split at h
      · split at h
        · exact absurd (congrArg Prod.fst h).symm hc
        · exact absurd (congrArg Prod.fst h).symm hc
      · exact (congrArg (fun p => p.2.2.calls) h).symm
  · intro hc hb
    rw [if_neg (fun h => h hc), if_pos hb]
    exact ⟨rfl, rfl⟩

/-- Instance of C12: on a kernel that fails every transaction the read of
`"TC0P"` returns the kernel's code after the one `READ_KEYINFO` request and
leaves the bytes zero. -/
theorem SMCReadKey_errors_witness :
    (SMCReadKey failingKernel SMCState.init keyTC0P).1 = -536870212 ∧
      (SMCReadKey failingKernel SMCState.init keyTC0P).2.2.calls =
        [⟨0, KERNEL_INDEX_SMC, keyInfoInput 0x54433050⟩] ∧
      (SMCReadKey failingKernel SMCState.init keyTC0P).2.1.bytes = List.replicate 32 0 := by
  have h := (SMCReadKey_errors failingKernel SMCState.init keyTC0P (-536870212)
    SMCKeyData_keyInfo_t.zero
    { SMCState.init with calls := [⟨0, KERNEL_INDEX_SMC, keyInfoInput 0x54433050⟩] }
    rfl).2.1 (by decide)
  refine ⟨h.1, ?_, h.2.2.2⟩
  rw [h.2.1]

/-- The hexadecimal path of `_strtoul` on four ASCII characters is their
big-endian packing. -/
theorem strtoul_ascii (b0 b1 b2 b3 : Nat) (rest : List Nat)
    (h0 : b0 < 128) (h1 : b1 < 128) (h2 : b2 < 128) (h3 : b3 < 128) :
    _strtoul (b0 :: b1 :: b2 :: b3 :: rest) 4 16 =
      b0 * 2 ^ 24 + b1 * 2 ^ 16 + b2 * 2 ^ 8 + b3 := by
  rw [strtoul_hex4, toSChar_small b0 (by omega), toSChar_small b1 (by omega),
    toSChar_small b2 (by omega), toSChar_small b3 (by omega)]
  omega

/-- The trace and the connection after a key-info resolution that found the
key, and after one that did not. -/
theorem SMCGetKeyInfo_trace (kernel : Kernel) (st : SMCState) (conn k : Nat)
    (keyInfo : SMCKeyData_keyInfo_t) :
    (SMCGetKeyInfo kernel st conn k keyInfo).2.2.conn = st.conn ∧
      ((∃ i, i < st.g_keyInfoCacheCount ∧
          (st.g_keyInfoCache.getD i KeyInfoCacheEntry.zero).key = k) →
        (SMCGetKeyInfo kernel st conn k keyInfo).2.2.calls = st.calls) ∧
      ((∀ i, i < st.g_keyInfoCacheCount →
          (st.g_keyInfoCache.getD i KeyInfoCacheEntry.zero).key ≠ k) →
        (SMCGetKeyInfo kernel st conn k keyInfo).2.2.calls =
          st.calls ++ [⟨conn, KERNEL_INDEX_SMC, keyInfoInput k⟩]) := by
  by_cases hp : ∃ i, i < st.g_keyInfoCacheCount ∧
      (st.g_keyInfoCache.getD i KeyInfoCacheEntry.zero).key = k
  · obtain ⟨i, _, _, _, hhit⟩ := SMCGetKeyInfo_first kernel st conn k keyInfo hp
    rw [hhit]
    refine ⟨rfl, fun _ => rfl, fun hmiss => ?_⟩
    obtain ⟨j, hj, hjk⟩ := hp
    exact absurd hjk (hmiss j hj)
  · have hmiss : ∀ i, i < st.g_keyInfoCacheCount →
        (st.g_keyInfoCache.getD i KeyInfoCacheEntry.zero).key ≠ k :=
      fun i hi e => hp ⟨i, hi, e⟩
    rw [SMCGetKeyInfo_of_absent kernel st conn k keyInfo hmiss]
    refine ⟨?_, fun h => absurd h hp, fun _ => ?_⟩
    · split
      · split <;> rfl
      · rfl
    · split
      · split <;> rfl
      · rfl

/-- **C16** (transactions issued by a read).  For every kernel and state and
every key of four ASCII characters `b0 b1 b2 b3` (each below 128), a
successful `SMCReadKey` adds to the trace, when the packed key is in none of
the first `count` cache slots, exactly two requests in this order, one with
`data8 = 9` (`READ_KEYINFO`) and one with `data8 = 5` (`READ_BYTES`), and,
when the packed key is cached, exactly one request with `data8 = 5`.  Every
request goes to the program's connection with index 2 and carries
`key = b0 * 2^24 + b1 * 2^16 + b2 * 2^8 + b3`; the `READ_BYTES` request
carries `keyInfo.dataSize` equal to the `dataSize` handed back in `val`; all
other fields of both requests are zero. -/
theorem SMCReadKey_transactions (kernel : Kernel) (st : SMCState) (b0 b1 b2 b3 : Nat)
    (rest : List Nat) (h0 : b0 < 128) (h1 : b1 < 128) (h2 : b2 < 128) (h3 : b3 < 128)
    (hok : (SMCReadKey kernel st (b0 :: b1 :: b2 :: b3 :: rest)).1 = kIOReturnSuccess) :
    ((∀ i, i < st.g_keyInfoCacheCount →
        (st.g_keyInfoCache.getD i KeyInfoCacheEntry.zero).key ≠
          b0 * 2 ^ 24 + b1 * 2 ^ 16 + b2 * 2 ^ 8 + b3) →
      (SMCReadKey kernel st (b0 :: b1 :: b2 :: b3 :: rest)).2.2.calls =
        st.calls ++
          [⟨st.conn, 2,
              { key := b0 * 2 ^ 24 + b1 * 2 ^ 16 + b2 * 2 ^ 8 + b3
                vers := ⟨0, 0, 0, 0, 0⟩, pLimitData := ⟨0, 0, 0, 0, 0⟩
                keyInfo := ⟨0, 0, 0⟩
                result := 0, status := 0, data8 := 9, data32 := 0
                bytes := List.replicate 32 0 }⟩,
            ⟨st.conn, 2,
              { key := b0 * 2 ^ 24 + b1 * 2 ^ 16 + b2 * 2 ^ 8 + b3
                vers := ⟨0, 0, 0, 0, 0⟩, pLimitData := ⟨0, 0, 0, 0, 0⟩
                keyInfo :=
                  ⟨(SMCReadKey kernel st (b0 :: b1 :: b2 :: b3 :: rest)).2.1.dataSize, 0, 0⟩
                result := 0, status := 0, data8 := 5, data32 := 0
                bytes := List.replicate 32 0 }⟩]) ∧
    ((∃ i, i < st.g_keyInfoCacheCount ∧
        (st.g_keyInfoCache.getD i KeyInfoCacheEntry.zero).key =
          b0 * 2 ^ 24 + b1 * 2 ^ 16 + b2 * 2 ^ 8 + b3) →
      (SMCReadKey kernel st (b0 :: b1 :: b2 :: b3 :: rest)).2.2.calls =
        st.calls ++
          [⟨st.conn, 2,
              { key := b0 * 2 ^ 24 + b1 * 2 ^ 16 + b2 * 2 ^ 8 + b3
                vers := ⟨0, 0, 0, 0, 0⟩, pLimitData := ⟨0, 0, 0, 0, 0⟩
                keyInfo :=
                  ⟨(SMCReadKey kernel st (b0 :: b1 :: b2 :: b3 :: rest)).2.1.dataSize, 0, 0⟩
                result := 0, status := 0, data8 := 5, data32 := 0
                bytes := List.replicate 32 0 }⟩]) := by
  have hK := strtoul_ascii b0 b1 b2 b3 rest h0 h1 h2 h3
  have hr := SMCReadKey_of kernel st (b0 :: b1 :: b2 :: b3 :: rest)
    (SMCGetKeyInfo kernel st st.conn (_strtoul (b0 :: b1 :: b2 :: b3 :: rest) 4 16)
      SMCKeyData_keyInfo_t.zero).1
    (SMCGetKeyInfo kernel st st.conn (_strtoul (b0 :: b1 :: b2 :: b3 :: rest) 4 16)
      SMCKeyData_keyInfo_t.zero).2.1
    (SMCGetKeyInfo kernel st st.conn (_strtoul (b0 :: b1 :: b2 :: b3 :: rest) 4 16)
      SMCKeyData_keyInfo_t.zero).2.2 rfl
  have ht := SMCGetKeyInfo_trace kernel st st.conn
    (_strtoul (b0 :: b1 :: b2 :: b3 :: rest) 4 16) SMCKeyData_keyInfo_t.zero
  rw [hK] at hr ht
  rw [hr] at hok ⊢
  split at hok
  · rename_i hc
    exact absurd hok hc
  · split at hok
    · rename_i hb
      exact absurd hok hb
    · rename_i hc hb
      rw [if_neg hc, if_neg hb]
      refine ⟨fun hmiss => ?_, fun hhit => ?_⟩
      · show _ ++ [_] = _
        rw [ht.2.2 hmiss, ht.1]
        simp only [List.append_assoc, List.singleton_append]
        rfl
      · show _ ++ [_] = _
        rw [ht.2.1 hhit, ht.1]
        rfl

/-- Instance of C16: the read of `"TC0P"` on the empty cache issues a
`READ_KEYINFO` and a `READ_BYTES` request; on the warm cache it issues the
`READ_BYTES` request alone. -/
theorem SMCReadKey_transactions_witness :
    (SMCReadKey sampleKernel SMCState.init keyTC0P).2.2.calls =
        [⟨0, 2, keyInfoInput 0x54433050⟩, ⟨0, 2, readBytesInput 0x54433050 2⟩] ∧
      (SMCReadKey sampleKernel warmState keyTC0P).2.2.calls =
        [⟨0, 2, readBytesInput 0x54433050 2⟩] :=
  ⟨(SMCReadKey_transactions sampleKernel SMCState.init 0x54 0x43 0x30 0x50 [0] (by decide)
      (by decide) (by decide) (by decide) rfl).1
      (fun i hi => absurd hi (Nat.not_lt_zero i)),
    (SMCReadKey_transactions sampleKernel warmState 0x54 0x43 0x30 0x50 [0] (by decide)
      (by decide) (by decide) (by decide) rfl).2 ⟨0, by decide, rfl⟩⟩

/-! ## The cache invariant -/

/-- Reading a slot of an array after slot `n` was written. -/
theorem getD_set (l : List KeyInfoCacheEntry) (n i : Nat) (e : KeyInfoCacheEntry)
    (hn : n < l.length) :
    (l.set n e).getD i KeyInfoCacheEntry.zero =
      if i = n then e else l.getD i KeyInfoCacheEntry.zero := by
  by_cases h : i = n
  · subst h
    simp [List.getD_eq_getElem?_getD, List.getElem?_set_self hn]
  · have hne : n ≠ i := fun e => h e.symm
    simp [List.getD_eq_getElem?_getD, List.getElem?_set_ne hne, h]

/-- `SMCGetKeyInfo` keeps the cache invariant. -/
theorem SMCGetKeyInfo_inv (kernel : Kernel) (st : SMCState) (conn k : Nat)
    (keyInfo : SMCKeyData_keyInfo_t) (hinv : CacheInv st) :
    CacheInv (SMCGetKeyInfo kernel st conn k keyInfo).2.2 := by
  obtain ⟨hlen, hcount, hdist⟩ := hinv
  by_cases hp : ∃ i, i < st.g_keyInfoCacheCount ∧
      (st.g_keyInfoCache.getD i KeyInfoCacheEntry.zero).key = k
  · obtain ⟨i, _, _, _, hhit⟩ := SMCGetKeyInfo_first kernel st conn k keyInfo hp
    rw [hhit]
    exact ⟨hlen, hcount, hdist⟩
  · have hmiss : ∀ i, i < st.g_keyInfoCacheCount →
        (st.g_keyInfoCache.getD i KeyInfoCacheEntry.zero).key ≠ k :=
      fun i hi e => hp ⟨i, hi, e⟩
    rw [SMCGetKeyInfo_of_absent kernel st conn k keyInfo hmiss]
    split
    · split
      · rename_i hroom
        have hlt : st.g_keyInfoCacheCount < st.g_keyInfoCache.length := by omega
        refine ⟨?_, ?_, ?_⟩
        · show (st.g_keyInfoCache.set _ _).length = _
          rw [List.length_set]
          exact hlen
        · show st.g_keyInfoCacheCount + 1 ≤ _
          omega
        · intro i j hi hj
          have hi' : i < st.g_keyInfoCacheCount + 1 := hi
          have hj' : j < st.g_keyInfoCacheCount + 1 := hj
          show ((st.g_keyInfoCache.set _ _).getD i _).key =
            ((st.g_keyInfoCache.set _ _).getD j _).key → _
          rw [getD_set _ _ i _ hlt, getD_set _ _ j _ hlt]
          by_cases hic : i = st.g_keyInfoCacheCount
          · by_cases hjc : j = st.g_keyInfoCacheCount
            · intro _
              omega
            · rw [if_pos hic, if_neg hjc]
              intro e
              exact absurd e.symm (hmiss j (by omega))
          · by_cases hjc : j = st.g_keyInfoCacheCount
            · rw [if_neg hic, if_pos hjc]
              intro e
              exact absurd e (hmiss i (by omega))
            · rw [if_neg hic, if_neg hjc]
              exact hdist i j (by omega) (by omega)
      · exact ⟨hlen, hcount, hdist⟩
    · exact ⟨hlen, hcount, hdist⟩

/-- `SMCReadKey` leaves the cache as its key-info resolution left it. -/
theorem SMCReadKey_cache (kernel : Kernel) (st : SMCState) (key : List Nat) :
    (SMCReadKey kernel st key).2.2.g_keyInfoCache =
        (SMCGetKeyInfo kernel st st.conn (_strtoul key 4 16)
          SMCKeyData_keyInfo_t.zero).2.2.g_keyInfoCache ∧
      (SMCReadKey kernel st key).2.2.g_keyInfoCacheCount =
        (SMCGetKeyInfo kernel st st.conn (_strtoul key 4 16)
          SMCKeyData_keyInfo_t.zero).2.2.g_keyInfoCacheCount := by
  rw [SMCReadKey_of kernel st key _ _ _ rfl]
  split
  · exact ⟨rfl, rfl⟩
  · split
    · exact ⟨rfl, rfl⟩
    · exact ⟨rfl, rfl⟩

/-- `SMCReadKey` keeps the cache invariant. -/
theorem SMCReadKey_inv (kernel : Kernel) (st : SMCState) (key : List Nat)
    (hinv : CacheInv st) : CacheInv (SMCReadKey kernel st key).2.2 := by
  have h := SMCGetKeyInfo_inv kernel st st.conn (_strtoul key 4 16)
    SMCKeyData_keyInfo_t.zero hinv
  have hc := SMCReadKey_cache kernel st key
  unfold CacheInv at h ⊢
  rw [hc.1, hc.2]
  exact h

/-- Every reachable state satisfies the cache invariant. -/
theorem Reachable_inv (kernel : Kernel) (st : SMCState) (h : Reachable kernel st) :
    CacheInv st := by
  induction h with
  | start st hlen hcount =>
    refine ⟨hlen, ?_, ?_⟩
    · rw [hcount]
      exact Nat.zero_le _
    · intro i j hi
      rw [hcount] at hi
      exact absurd hi (Nat.not_lt_zero i)
  | getKeyInfo st conn key keyInfo _ ih => exact SMCGetKeyInfo_inv kernel st conn key keyInfo ih
  | readKey st key _ ih => exact SMCReadKey_inv kernel st key ih

/-- **C17** (cache invariant).  In every state reachable from an empty cache
by any finite sequence of `SMCGetKeyInfo` and `SMCReadKey` calls, with any
keys and any kernel: the count is at most 100 (it is a natural number, so it
is not negative), the array still has its 100 slots, so every slot index
below the count is inside the array, and the keys of the first `count` slots
are pairwise distinct. -/
theorem cache_invariant (kernel : Kernel) (st : SMCState) (h : Reachable kernel st) :
    0 ≤ st.g_keyInfoCacheCount ∧
      st.g_keyInfoCacheCount ≤ 100 ∧
      (∀ i, i < st.g_keyInfoCacheCount → i < st.g_keyInfoCache.length) ∧
      ∀ i j, i < st.g_keyInfoCacheCount → j < st.g_keyInfoCacheCount →
        (st.g_keyInfoCache.getD i KeyInfoCacheEntry.zero).key =
          (st.g_keyInfoCache.getD j KeyInfoCacheEntry.zero).key → i = j := by
  obtain ⟨hlen, hcount, hdist⟩ := Reachable_inv kernel st h
  have hc : st.g_keyInfoCacheCount ≤ 100 := hcount
  have hl : st.g_keyInfoCache.length = 100 := hlen
  exact ⟨Nat.zero_le _, hc, fun i hi => by omega, hdist⟩

/-- Instance of C17: the state after reading `"TC0P"` twice from the start
state. -/
theorem cache_invariant_witness :
    (SMCReadKey sampleKernel (SMCReadKey sampleKernel SMCState.init keyTC0P).2.2
        keyTC0P).2.2.g_keyInfoCacheCount ≤ 100 :=
  (cache_invariant sampleKernel _
    (Reachable.readKey _ keyTC0P
      (Reachable.readKey _ keyTC0P (Reachable.start SMCState.init rfl rfl)))).2.1

/-! ## Decoders: which bytes are read -/

/-- What the fixed-point branches compute from bytes 0 and 1 is the signed
16-bit big-endian value. -/
theorem signed16BE_eq (b0 b1 : Nat) (h0 : b0 < 256) (h1 : b1 < 256) :
    toSChar b0 * 256 + (b1 : Int) = signed16BE b0 b1 := by
  unfold toSChar signed16BE
  split_ifs <;> omega

/-- **C19** (sign of the fixed-point temperature decode).  For every
successful read with `dataSize > 0` whose tag is one of sp1e, sp3c, sp4b,
sp5a, sp78, sp87, sp96, spb4, spf0 with divisor `D`, and whose first two
payload bytes are `byte0`, `byte1` (values `0..255`), `SMCGetTemperature`
returns `s / D` where `s` is the two's-complement signed 16-bit big-endian
value of the two bytes; the result is negative exactly when `byte0 ≥ 128`,
and it then lies `65536 / D` below the unsigned formula
`(byte0 * 256 + byte1) / D`. -/
theorem SMCGetTemperature_signed (kernel : Kernel) (st : SMCState) (key : List Nat) (D : Nat)
    (hok : (SMCReadKey kernel st key).1 = kIOReturnSuccess)
    (hsize : (SMCReadKey kernel st key).2.1.dataSize > 0)
    (htag : (cstring (SMCReadKey kernel st key).2.1.dataType, D) ∈ fixedPointTable)
    (h0 : (SMCReadKey kernel st key).2.1.byte 0 < 256)
    (h1 : (SMCReadKey kernel st key).2.1.byte 1 < 256) :
    (SMCGetTemperature kernel st key).1 =
        CFloat.num ((signed16BE ((SMCReadKey kernel st key).2.1.byte 0)
          ((SMCReadKey kernel st key).2.1.byte 1) : ℚ) / (D : ℚ)) ∧
      ((signed16BE ((SMCReadKey kernel st key).2.1.byte 0)
          ((SMCReadKey kernel st key).2.1.byte 1) : ℚ) / (D : ℚ) < 0 ↔
        128 ≤ (SMCReadKey kernel st key).2.1.byte 0) ∧
      (128 ≤ (SMCReadKey kernel st key).2.1.byte 0 →
        (signed16BE ((SMCReadKey kernel st key).2.1.byte 0)
            ((SMCReadKey kernel st key).2.1.byte 1) : ℚ) / (D : ℚ) =
          (((SMCReadKey kernel st key).2.1.byte 0 * 256 +
            (SMCReadKey kernel st key).2.1.byte 1 : Nat) : ℚ) / (D : ℚ) - 65536 / (D : ℚ)) := by
  have h := SMCGetTemperature_fixed kernel st key D hok hsize htag
  rw [signed16BE_eq _ _ h0 h1] at h
  have hD : (0 : ℚ) < (D : ℚ) := by
    exact_mod_cast fixedPointTable_pos _ D htag
  refine ⟨h, ?_, ?_⟩
  · rw [div_neg_iff]
    constructor
    · rintro (⟨_, hneg⟩ | ⟨hs, _⟩)
      · exact absurd hD (not_lt.mpr hneg.le)
      · have hs' : signed16BE ((SMCReadKey kernel st key).2.1.byte 0)
            ((SMCReadKey kernel st key).2.1.byte 1) < 0 := by exact_mod_cast hs
        unfold signed16BE at hs'
        split_ifs at hs' <;> omega
    · intro hb
      right
      refine ⟨?_, hD⟩
      have hs' : signed16BE ((SMCReadKey kernel st key).2.1.byte 0)
          ((SMCReadKey kernel st key).2.1.byte 1) < 0 := by
        unfold signed16BE
        split_ifs <;> omega
      exact_mod_cast hs'
  · intro hb
    have hs' : signed16BE ((SMCReadKey kernel st key).2.1.byte 0)
        ((SMCReadKey kernel st key).2.1.byte 1) =
        (((SMCReadKey kernel st key).2.1.byte 0 * 256 +
          (SMCReadKey kernel st key).2.1.byte 1 : Nat) : Int) - 65536 := by
      unfold signed16BE
      split_ifs <;> omega
    rw [hs']
    push_cast
    ring

/-- Instance of C19: type `sp78`, payload `0xFF, 0x80`: the value is
`-128 / 256 = -0.5`. -/
theorem SMCGetTemperature_signed_witness :
    (SMCGetTemperature (constKernel infoSP78 [0xFF, 0x80]) SMCState.init keyTC0P).1 =
      CFloat.num (-1 / 2) := by
  have h := (SMCGetTemperature_signed (constKernel infoSP78 [0xFF, 0x80]) SMCState.init keyTC0P
    256 rfl (by decide) (by decide) (by decide) (by decide)).1
  have e : signed16BE
      ((SMCReadKey (constKernel infoSP78 [0xFF, 0x80]) SMCState.init keyTC0P).2.1.byte 0)
      ((SMCReadKey (constKernel infoSP78 [0xFF, 0x80]) SMCState.init keyTC0P).2.1.byte 1) =
      -128 := by decide
  rw [e] at h
  rw [h]
  norm_num

/-! ## The decimal path of `_strtoul` -/

/-- On the decimal path a character shifted by a whole number of bytes
contributes nothing, and the unshifted character contributes its byte. -/
theorem strtoulStep_decimal (str : List Nat) (size base : Int) (i total : Nat)
    (hbase : base ≠ 16) (htotal : total < 256) :
    ((((size - 1 - (i : Int)) * 8) % 32).toNat = 0 → str.getD i 0 < 256 → total = 0 →
        strtoulStep str size base i total = str.getD i 0) ∧
      (∀ k : Nat, (((size - 1 - (i : Int)) * 8) % 32).toNat = 8 * (k + 1) →
        strtoulStep str size base i total = total) := by
  refine ⟨fun he hb ht => ?_, fun k he => ?_⟩
  · simp only [strtoulStep, if_neg hbase, he, pow_zero, mul_one, ht, Nat.zero_add]
    unfold toSChar
    split_ifs <;> omega
  · simp only [strtoulStep, if_neg hbase, he]
    have h256 : (2 : Int) ^ (8 * (k + 1)) = 256 * 256 ^ k := by
      rw [pow_mul, pow_succ]
      norm_num
      ring
    rw [h256]
    have hz : toSChar (str.getD i 0) * (256 * 256 ^ k) % 256 = 0 := by
      rw [show toSChar (str.getD i 0) * (256 * 256 ^ k) =
        256 * (toSChar (str.getD i 0) * 256 ^ k) by ring]
      exact Int.mul_emod_right 256 _
    rw [hz]
    simp only [Int.toNat_zero, Nat.add_zero]
    omega

/-- The decimal path keeps the last byte only. -/
theorem strtoul_decimal_last (str : List Nat) (size base : Int)
    (hsize : 1 ≤ size ∧ size ≤ 4) (hbase : base ≠ 16)
    (hlast : str.getD (size - 1).toNat 0 < 256) :
    _strtoul str size base = str.getD (size - 1).toNat 0 := by
  obtain ⟨hlo, hhi⟩ := hsize
  have hcases : size = 1 ∨ size = 2 ∨ size = 3 ∨ size = 4 := by omega
  rcases hcases with h | h | h | h
  · subst h
    show strtoulStep str 1 base 0 0 = _
    exact (strtoulStep_decimal str 1 base 0 0 hbase (by decide)).1 (by decide) hlast rfl
  · subst h
    show strtoulStep str 2 base 1 (strtoulStep str 2 base 0 0) = _
    rw [(strtoulStep_decimal str 2 base 0 0 hbase (by decide)).2 0 (by decide)]
    exact (strtoulStep_decimal str 2 base 1 0 hbase (by decide)).1 (by decide) hlast rfl
  · subst h
    show strtoulStep str 3 base 2 (strtoulStep str 3 base 1 (strtoulStep str 3 base 0 0)) = _
    rw [(strtoulStep_decimal str 3 base 0 0 hbase (by decide)).2 1 (by decide),
      (strtoulStep_decimal str 3 base 1 0 hbase (by decide)).2 0 (by decide)]
    exact (strtoulStep_decimal str 3 base 2 0 hbase (by decide)).1 (by decide) hlast rfl
  · subst h
    show strtoulStep str 4 base 3 (strtoulStep str 4 base 2 (strtoulStep str 4 base 1
      (strtoulStep str 4 base 0 0))) = _
    rw [(strtoulStep_decimal str 4 base 0 0 hbase (by decide)).2 2 (by decide),
      (strtoulStep_decimal str 4 base 1 0 hbase (by decide)).2 1 (by decide),
      (strtoulStep_decimal str 4 base 2 0 hbase (by decide)).2 0 (by decide)]
    exact (strtoulStep_decimal str 4 base 3 0 hbase (by decide)).1 (by decide) hlast rfl

/-- **C20** (decimal-path `_strtoul`).  For every size in `1..4`, every base
other than 16 and every byte string whose byte at index `size - 1` is a byte
value (`0..255`), `_strtoul(str, size, base)` returns the unsigned value of
that last byte alone, whatever the earlier bytes are.  Hence the fan count
`readAndPrintFanRPMs` computes (with base 10) from a value with that payload
and `dataSize = size` is the payload byte at index `dataSize - 1`. -/
theorem strtoul_decimal (str : List Nat) (size base : Int)
    (hsize : 1 ≤ size ∧ size ≤ 4) (hbase : base ≠ 16)
    (hlast : str.getD (size - 1).toNat 0 < 256) :
    _strtoul str size base = str.getD (size - 1).toNat 0 ∧
      ∀ val : SMCVal_t, val.bytes = str → (val.dataSize : Int) = size →
        totalFansOf val = ((val.byte (val.dataSize - 1) : Nat) : Int) := by
  refine ⟨strtoul_decimal_last str size base hsize hbase hlast, ?_⟩
  intro val hbytes hds
  have hd : val.dataSize < 5 := by omega
  have hd1 : 1 ≤ val.dataSize := by omega
  have h32 : toInt32 val.dataSize = size := by
    unfold toInt32
    have : val.dataSize % 2 ^ 32 = val.dataSize := Nat.mod_eq_of_lt (by omega)
    rw [this, if_pos (by omega)]
    exact hds
  have hidx : (size - 1).toNat = val.dataSize - 1 := by omega
  unfold totalFansOf
  rw [h32, hbytes, strtoul_decimal_last str size 10 hsize (by decide) hlast, hidx]
  rw [hidx] at hlast
  unfold toInt32
  have hm : str.getD (val.dataSize - 1) 0 % 2 ^ 32 = str.getD (val.dataSize - 1) 0 :=
    Nat.mod_eq_of_lt (by omega)
  rw [hm, if_pos (by omega)]
  simp [SMCVal_t.byte, hbytes]

/-- Instance of C20: `dataSize = 1`, bytes `[2]` gives 2; `dataSize = 2`,
bytes `[1, 0]` gives 0. -/
theorem strtoul_decimal_witness :
    _strtoul [2] 1 10 = 2 ∧ _strtoul [1, 0] 2 10 = 0 :=
  ⟨(strtoul_decimal [2] 1 10 (by decide) (by decide) (by decide)).1,
    (strtoul_decimal [1, 0] 2 10 (by decide) (by decide) (by decide)).1⟩

/-- From five characters on the shift count wraps: with `size = 5` the
character at index 0 is shifted by `32 % 32 = 0` places, so on the decimal
path its byte is added to the last one. -/
theorem strtoul_decimal_wide :
    _strtoul [1, 0, 0, 0, 2] 5 10 = 3 ∧ _strtoul [0, 1, 0, 0, 2] 5 10 = 2 := by
  decide

/-! ## Floating point: rounding, Fahrenheit, printing -/

/-- A number closer than one half to an integer rounds to it. -/
theorem roundHalfEven_near (x : ℚ) (n : Int) (h : |x - n| < 1 / 2) : roundHalfEven x = n := by
  rw [abs_lt] at h
  obtain ⟨hl, hr⟩ := h
  by_cases hge : (n : ℚ) ≤ x
  · have hf : ⌊x⌋ = n := Int.floor_eq_iff.mpr ⟨hge, by linarith⟩
    unfold roundHalfEven
    rw [hf, if_pos (by linarith)]
  · have hf : ⌊x⌋ = n - 1 := Int.floor_eq_iff.mpr ⟨by push_cast; linarith, by push_cast; linarith⟩
    unfold roundHalfEven
    rw [hf]
    push_cast
    rw [if_neg (by linarith), if_pos (by linarith)]
    ring

/-- The sentinel `0.0` prints as `0.0` under `%0.1f`. -/
theorem fmtFixed1_zero : fmtFixed 1 (CFloat.num 0) = ascii "0.0" := by
  have hr : roundHalfEven (|(0 : ℚ)| * 10 ^ 1) = 0 := roundHalfEven_near _ _ (by norm_num)
  have hs : CFloat.signBit (CFloat.num 0) = false := by simp [CFloat.signBit]
  simp only [fmtFixed, CFloat.value, fmtFinite, hr, hs]
  decide

/-- **C15** (session errors abort startup) fails on the code.  With no option
given and no SMC device found, `SMCOpen` prints its error and returns 1, but
`main` does not look at that value: it goes on to `readAndPrintCpuTemp`, which
issues a `READ_KEYINFO` transaction for `Tp09` on the connection that was
never opened, prints the temperature line `0.0 °C` when that transaction
fails, and `main` returns 0. -/
theorem main_ignores_open_failure :
    (SMCOpen ⟨0, 0, 0, 0⟩ SMCState.init).1 = 1 ∧
      (main failingKernel exactPercent ⟨0, 0, 0, 0⟩ [] SMCState.init).1 = 0 ∧
      (main failingKernel exactPercent ⟨0, 0, 0, 0⟩ [] SMCState.init).2.calls =
        [⟨0, 2, keyInfoInput 0x54703039⟩] ∧
      (main failingKernel exactPercent ⟨0, 0, 0, 0⟩ [] SMCState.init).2.stdout =
        ascii "Error: no SMC found\n" ++ (ascii "0.0 " ++ [0xC2, 0xB0] ++ ascii "C\n") := by
  refine ⟨by decide, by decide, by decide, ?_⟩
  have hT : (SMCGetTemperature failingKernel (SMCOpen ⟨0, 0, 0, 0⟩ SMCState.init).2
      (ascii "Tp09" ++ [0])).1 = CFloat.num 0 :=
    temperatureOf_sentinel
      (SMCReadKey failingKernel (SMCOpen ⟨0, 0, 0, 0⟩ SMCState.init).2 (ascii "Tp09" ++ [0])).1
      (SMCReadKey failingKernel (SMCOpen ⟨0, 0, 0, 0⟩ SMCState.init).2 (ascii "Tp09" ++ [0])).2.1
      (Or.inl (by decide))
  have hmain : (main failingKernel exactPercent ⟨0, 0, 0, 0⟩ [] SMCState.init).2.stdout =
      (SMCOpen ⟨0, 0, 0, 0⟩ SMCState.init).2.stdout ++
        temperatureLine []
          (SMCGetTemperature failingKernel (SMCOpen ⟨0, 0, 0, 0⟩ SMCState.init).2
            (ascii "Tp09" ++ [0])).1 0x43 := by
    rfl
  rw [hmain, hT]
  unfold temperatureLine
  rw [fmtFixed1_zero]
  decide

end SMC
